import Mathlib

/-!
# PROC.c — decode / dispatch core of the MIPS simulator

Shallow embedding of `src/PROC.c`.

* `uint32_t` / `uint8_t` values are natural numbers, reduced `% 2^32` / `% 256`
  wherever the C type truncates.
* `int32_t` values are integers; a conversion to `int32_t` is `wrap32`
  (two's complement), a conversion to `uint32_t` is `toU32`.
* `exit(1)` / `return 1` paths are the `Except.error` results of the handlers.
-/

namespace PROC

/-! ## Machine integers -/

/-- `INT_MAX` from `<limits.h>` (32-bit `int`). -/
def INT_MAX : Int := 2147483647

/-- `INT_MIN` from `<limits.h>` (32-bit `int`). -/
def INT_MIN : Int := -2147483648

/-- The value fits an `int32_t`. -/
def inInt32 (x : Int) : Prop := INT_MIN ≤ x ∧ x ≤ INT_MAX

instance (x : Int) : Decidable (inInt32 x) := by
  unfold inInt32; exact inferInstance

/-- Conversion of an integer to `int32_t` (two's-complement wrap-around). -/
def wrap32 (x : Int) : Int := (x + 2147483648) % 4294967296 - 2147483648

/-- Conversion of an integer to `uint32_t`. -/
def toU32 (x : Int) : Nat := (x % 4294967296).toNat

/-- Conversion of an unsigned value to `uint8_t`. -/
def toU8 (x : Nat) : Nat := x % 256

/-- Left shift of a `uint32_t`: `x << k`, truncated to 32 bits. -/
def shl32 (x k : Nat) : Nat := (x <<< k) % 4294967296

/-! ## Instruction decoder (PROC.c lines 74–108) -/

/-- `uint8_t getOpcode(uint32_t instruction) { return instruction >> 26; }` -/
def getOpcode (instruction : Nat) : Nat := toU8 (instruction >>> 26)

/-- `return (instruction << 6) >> 27;` -/
def getRS (instruction : Nat) : Nat := toU8 (shl32 instruction 6 >>> 27)

/-- `return (instruction << 11) >> 27;` -/
def getRT (instruction : Nat) : Nat := toU8 (shl32 instruction 11 >>> 27)

/-- `return (instruction << 16) >> 27;` -/
def getRD (instruction : Nat) : Nat := toU8 (shl32 instruction 16 >>> 27)

/-- `return (instruction << 21) >> 27;` -/
def getShamt (instruction : Nat) : Nat := toU8 (shl32 instruction 21 >>> 27)

/-- `return (instruction << 26) >> 26;` -/
def getFunct (instruction : Nat) : Nat := toU8 (shl32 instruction 26 >>> 26)

/-- `int32_t getImmediate(uint32_t instruction) { return (instruction << 16) >> 16; }`
Both shifts act on the unsigned operand; the `uint32_t` result is then
converted to the `int32_t` return type. -/
def getImmediate (instruction : Nat) : Int :=
  wrap32 ((shl32 instruction 16 >>> 16 : Nat) : Int)

/-- `uint32_t getAddress(uint32_t instruction) { return (instruction << 6) >> 6; }` -/
def getAddress (instruction : Nat) : Nat := shl32 instruction 6 >>> 6

/-- `uint32_t getCode(uint32_t instruction) { return (instruction << 6) >> 12; }` -/
def getCode (instruction : Nat) : Nat := shl32 instruction 6 >>> 12

/-! ## Overflow detector (PROC.c lines 110–112) -/

/-- `return (a >= 0 && b > (INT_MAX - a)) || (a < 0 && b < (INT_MIN - a));`
The two subtractions are `int` subtractions, hence the `wrap32`. -/
def additionWillOverflow (a b : Int) : Bool :=
  (decide (a ≥ 0) && decide (b > wrap32 (INT_MAX - a))) ||
    (decide (a < 0) && decide (b < wrap32 (INT_MIN - a)))

/-! ## Register file (PROC.c lines 127–142)

`RegFile` is declared in `RegFile.h`, which is not part of the sources; it is
an array of `int32_t`, embedded as a list whose length is the number of
entries, so that `sizeof(RegFile) / sizeof(int32_t)` is `RegFile.length`. -/

/-- Modelled from the spec: `RegFile.h` is absent. The data model gives the
register file 34 signed 32-bit values (32 general-purpose registers, then
HI at index 32 and LO at index 33). -/
def RegFileEntries : Nat := 34

/-- A register file of the declared size whose entries are `int32_t` values. -/
def RegFileOK (RegFile : List Int) : Prop :=
  RegFile.length = RegFileEntries ∧ ∀ v ∈ RegFile, inInt32 v

/-- Ways in which the program stops before the loop ends. -/
inductive Fault where
  /-- `fprintf(stderr, "RegFile index out of bounds: %d\n", n); exit(1);` -/
  | regIndex (n : Nat)
  /-- `fprintf(stderr, "Overflow"); return 1;` -/
  | overflow
  /-- `fprintf(stderr, "Unknown Funct: %d\n", funct); return 1;` -/
  | unknownFunct (funct : Nat)
  /-- `fprintf(stderr, "Unknown Opcode: %d\n", ...); return 1;` -/
  | unknownOpcode (opcode : Nat)
  /-- The external `SyscallExe` did not return (it ended the process). -/
  | syscallExit
  /-- Not a diagnostic of the program: `RegFile[n]` was evaluated with `n`
  equal to the number of entries, one past the last element, which the
  bounds test `n > sizeof(RegFile) / sizeof(int32_t)` lets through. The C
  behaviour is undefined there; the embedding stops with this marker. -/
  | pastTheEnd (n : Nat)
  deriving DecidableEq, Repr

/-- Process exit status of a faulting run (`exit(1)` and `return 1`); the
status chosen by a terminating syscall handler is not known to the core. -/
def Fault.exitStatus : Fault → Option Int
  | .syscallExit => none
  | .pastTheEnd _ => none
  | _ => some 1

/-- `int32_t getRegValue(uint8_t n)` -/
def getRegValue (RegFile : List Int) (n : Nat) : Except Fault Int :=
  if n > RegFile.length then .error (.regIndex n)
  else match RegFile[n]? with
    | some v => .ok v
    | none => .error (.pastTheEnd n)

/-- `void setRegValue(uint8_t n, int32_t value)`; returns the register file
after the call. -/
def setRegValue (RegFile : List Int) (n : Nat) (value : Int) : Except Fault (List Int) :=
  if n = 0 then .ok RegFile
  else if n > RegFile.length then .error (.regIndex n)
  else if n < RegFile.length then .ok (RegFile.set n value)
  else .error (.pastTheEnd n)

/-! ## Machine state and the external collaborators -/

/-- The state `main` works on: the global register file, the simulated
memory (as the word `readWord` returns at each address), and the locals
`ProgramCounter`, `jumpAddress`, `jumpState`. -/
structure Machine where
  RegFile : List Int
  mem : Nat → Nat
  ProgramCounter : Nat
  jumpAddress : Nat
  jumpState : Int

/-- The external `SyscallExe(code)`: it may change registers and memory, or
end the process (`none`). It has no access to the locals of `main`. -/
abbrev Syscall := Nat → List Int → (Nat → Nat) → Option (List Int × (Nat → Nat))

/-- `readWord(address, false)`, a `uint32_t`. -/
def readWord (s : Machine) (address : Nat) : Nat := s.mem address % 4294967296

/-! ## Handlers of the dispatch switch (PROC.c lines 260–429) -/

/-- `case FUNCT_JR` -/
def caseJR (s : Machine) (rs : Nat) : Except Fault Machine := do
  let addr ← getRegValue s.RegFile rs
  .ok { s with jumpAddress := toU32 (wrap32 (addr * 2 ^ 2)), jumpState := 2 }

/-- `case FUNCT_SYSCALL` -/
def caseSYSCALL (SyscallExe : Syscall) (s : Machine) (code : Nat) : Except Fault Machine :=
  match SyscallExe code s.RegFile s.mem with
  | some (rf, m) => .ok { s with RegFile := rf, mem := m }
  | none => .error .syscallExit

/-- `case FUNCT_ADD` -/
def caseADD (s : Machine) (rs rt : Nat) : Except Fault Machine := do
  let left ← getRegValue s.RegFile rt
  let right ← getRegValue s.RegFile rs
  if additionWillOverflow left right then .error .overflow
  else do
    let rf ← setRegValue s.RegFile rs (wrap32 (left + right))
    .ok { s with RegFile := rf }

/-- `case FUNCT_ADDU` -/
def caseADDU (s : Machine) (rs rt : Nat) : Except Fault Machine := do
  let left ← getRegValue s.RegFile rt
  let right ← getRegValue s.RegFile rs
  let rf ← setRegValue s.RegFile rs (wrap32 (left + right))
  .ok { s with RegFile := rf }

/-- `case FUNCT_SUB` -/
def caseSUB (s : Machine) (rs rt : Nat) : Except Fault Machine := do
  let left ← getRegValue s.RegFile rt
  let right ← getRegValue s.RegFile rs
  if additionWillOverflow left (wrap32 (-right)) then .error .overflow
  else do
    let rf ← setRegValue s.RegFile rs (wrap32 (left - right))
    .ok { s with RegFile := rf }

/-- `case FUNCT_SUBU` -/
def caseSUBU (s : Machine) (rs rt : Nat) : Except Fault Machine := do
  let left ← getRegValue s.RegFile rt
  let right ← getRegValue s.RegFile rs
  let rf ← setRegValue s.RegFile rs (wrap32 (left - right))
  .ok { s with RegFile := rf }

/-- `case FUNCT_SLL` -/
def caseSLL (s : Machine) (rt rd shamt : Nat) : Except Fault Machine := do
  let initialValue ← getRegValue s.RegFile rt
  let rf ← setRegValue s.RegFile rd (wrap32 (initialValue * 2 ^ shamt))
  .ok { s with RegFile := rf }

/-- `case FUNCT_MFHI` -/
def caseMFHI (s : Machine) (rd : Nat) : Except Fault Machine := do
  let value ← getRegValue s.RegFile 32
  let rf ← setRegValue s.RegFile rd value
  .ok { s with RegFile := rf }

/-- `case FUNCT_MTHI` -/
def caseMTHI (s : Machine) (rs : Nat) : Except Fault Machine := do
  let value ← getRegValue s.RegFile rs
  let rf ← setRegValue s.RegFile 32 value
  .ok { s with RegFile := rf }

/-- `case FUNCT_MFLO` -/
def caseMFLO (s : Machine) (rd : Nat) : Except Fault Machine := do
  let value ← getRegValue s.RegFile 33
  let rf ← setRegValue s.RegFile rd value
  .ok { s with RegFile := rf }

/-- `case FUNCT_MTLO` -/
def caseMTLO (s : Machine) (rs : Nat) : Except Fault Machine := do
  let value ← getRegValue s.RegFile rs
  let rf ← setRegValue s.RegFile 33 value
  .ok { s with RegFile := rf }

/-- `case OP_JUMP` -/
def caseJUMP (s : Machine) (address : Nat) : Except Fault Machine :=
  .ok { s with jumpAddress := shl32 address 2, jumpState := 2 }

/-- `case OP_ADDI` -/
def caseADDI (s : Machine) (rs rt : Nat) (immediate : Int) : Except Fault Machine := do
  let left ← getRegValue s.RegFile rs
  if additionWillOverflow left immediate then .error .overflow
  else do
    let rf ← setRegValue s.RegFile rt (wrap32 (left + immediate))
    .ok { s with RegFile := rf }

/-- `case OP_BEQ`; its block has no `break` after the `if`, so control runs
on into `case OP_ADDI` when the `if` body is not taken. -/
def caseBEQ (s : Machine) (rs rt : Nat) (immediate : Int) (address : Nat) :
    Except Fault Machine := do
  let a ← getRegValue s.RegFile rs
  let b ← getRegValue s.RegFile rt
  if a = b then do
    let rf ← setRegValue s.RegFile 31 (wrap32 (s.ProgramCounter : Int))
    .ok { s with jumpAddress := shl32 address 2, jumpState := 2, RegFile := rf }
  else caseADDI s rs rt immediate

/-- `case OP_ADDIU` -/
def caseADDIU (s : Machine) (rs rt : Nat) (immediate : Int) : Except Fault Machine := do
  let left ← getRegValue s.RegFile rs
  let rf ← setRegValue s.RegFile rt (wrap32 (left + immediate))
  .ok { s with RegFile := rf }

/-- `case OP_ANDI` -/
def caseANDI (s : Machine) (rs rt : Nat) (immediate : Int) : Except Fault Machine := do
  let a ← getRegValue s.RegFile rs
  let rf ← setRegValue s.RegFile rt (Int.land a immediate)
  .ok { s with RegFile := rf }

/-- `case OP_ORI` -/
def caseORI (s : Machine) (rs rt : Nat) (immediate : Int) : Except Fault Machine := do
  let a ← getRegValue s.RegFile rs
  let rf ← setRegValue s.RegFile rt (Int.lor a immediate)
  .ok { s with RegFile := rf }

/-- `case OP_XORI` -/
def caseXORI (s : Machine) (rs rt : Nat) (immediate : Int) : Except Fault Machine := do
  let a ← getRegValue s.RegFile rs
  let rf ← setRegValue s.RegFile rt (Int.xor a immediate)
  .ok { s with RegFile := rf }

/-- `case OP_LUI` -/
def caseLUI (s : Machine) (rs rt : Nat) (immediate : Int) : Except Fault Machine := do
  let value ← getRegValue s.RegFile rs
  let upperImmediate := wrap32 (immediate * 2 ^ 16)
  let rf ← setRegValue s.RegFile rt (Int.lor value upperImmediate)
  .ok { s with RegFile := rf }

/-- `case OP_LW`: `int32_t addr = rt + immediate;` adds the register *number*
`rt` to the immediate. -/
def caseLW (s : Machine) (rs rt : Nat) (immediate : Int) : Except Fault Machine := do
  let addr := wrap32 ((rt : Int) + immediate)
  let value := readWord s (toU32 addr)
  let rf ← setRegValue s.RegFile rs (wrap32 (value : Int))
  .ok { s with RegFile := rf }

/-- The inner `switch (funct)` of `case OP_UNSPECIFIED`. -/
def dispatchFunct (SyscallExe : Syscall) (s : Machine) (CurrentInstruction : Nat) :
    Except Fault Machine :=
  let rs := getRS CurrentInstruction
  let rt := getRT CurrentInstruction
  let rd := getRD CurrentInstruction
  let shamt := getShamt CurrentInstruction
  let funct := getFunct CurrentInstruction
  let code := getCode CurrentInstruction
  if funct = 8 then caseJR s rs
  else if funct = 12 then caseSYSCALL SyscallExe s code
  else if funct = 32 then caseADD s rs rt
  else if funct = 33 then caseADDU s rs rt
  else if funct = 34 then caseSUB s rs rt
  else if funct = 35 then caseSUBU s rs rt
  else if funct = 0 then caseSLL s rt rd shamt
  else if funct = 16 then caseMFHI s rd
  else if funct = 17 then caseMTHI s rs
  else if funct = 18 then caseMFLO s rd
  else if funct = 19 then caseMTLO s rs
  else .error (.unknownFunct funct)

/-- The `switch (getOpcode(CurrentInstruction))` of the loop body. -/
def execute (SyscallExe : Syscall) (s : Machine) (CurrentInstruction : Nat) :
    Except Fault Machine :=
  let rs := getRS CurrentInstruction
  let rt := getRT CurrentInstruction
  let immediate := getImmediate CurrentInstruction
  let address := getAddress CurrentInstruction
  let opcode := getOpcode CurrentInstruction
  if opcode = 0 then dispatchFunct SyscallExe s CurrentInstruction
  else if opcode = 2 then caseJUMP s address
  else if opcode = 4 then caseBEQ s rs rt immediate address
  else if opcode = 8 then caseADDI s rs rt immediate
  else if opcode = 9 then caseADDIU s rs rt immediate
  else if opcode = 11 then .ok s
  else if opcode = 12 then caseANDI s rs rt immediate
  else if opcode = 13 then caseORI s rs rt immediate
  else if opcode = 14 then caseXORI s rs rt immediate
  else if opcode = 15 then caseLUI s rs rt immediate
  else if opcode = 35 then caseLW s rs rt immediate
  else .error (.unknownOpcode opcode)

/-! ## Fetch-execute loop (PROC.c lines 230–439) -/

/-- The code after the label `end:` (lines 431–438). -/
def endOfCycle (s : Machine) : Machine :=
  let s1 := { s with ProgramCounter := (s.ProgramCounter + 4) % 4294967296 }
  if s1.jumpState = 2 then { s1 with jumpState := s1.jumpState - 1 }
  else if s1.jumpState = 1 then
    { s1 with ProgramCounter := s1.jumpAddress, jumpState := s1.jumpState - 1 }
  else s1

/-- One iteration of the `for` loop: fetch, `if (CurrentInstruction == 0) goto end;`,
dispatch, then the code at `end:`. -/
def cycle (SyscallExe : Syscall) (s : Machine) : Except Fault Machine :=
  let CurrentInstruction := readWord s s.ProgramCounter
  if CurrentInstruction = 0 then .ok (endOfCycle s)
  else do
    let s' ← execute SyscallExe s CurrentInstruction
    .ok (endOfCycle s')

/-- The loop `for (i = 0; i < MaxInstructions; i++)`: the addresses fetched,
in order, and the state the loop ends in (or the fault that ended it). -/
def run (SyscallExe : Syscall) : Nat → Machine → List Nat × Except Fault Machine
  | 0, s => ([], .ok s)
  | MaxInstructions + 1, s =>
    match cycle SyscallExe s with
    | .error e => ([s.ProgramCounter], .error e)
    | .ok s' =>
      let rest := run SyscallExe MaxInstructions s'
      (s.ProgramCounter :: rest.1, rest.2)

/-- The locals as `main` sets them before the loop (lines 223, 230, 231). -/
def boot (RegFile : List Int) (mem : Nat → Nat) (GPC_START : Nat) : Machine :=
  { RegFile := RegFile, mem := mem, ProgramCounter := GPC_START % 4294967296,
    jumpAddress := 0, jumpState := 0 }

/-! ## Predicates on fetched words -/

/-- The word selects `case FUNCT_SYSCALL` (opcode 0, funct 12). -/
def isSyscall (w : Nat) : Prop := getOpcode w = 0 ∧ getFunct w = 12

instance (w : Nat) : Decidable (isSyscall w) := by
  unfold isSyscall; exact inferInstance

/-- The handler the word selects assigns `jumpState = 2` in state `s`:
`case OP_JUMP`, `case FUNCT_JR`, or `case OP_BEQ` with `a == b`. -/
def arms (s : Machine) (w : Nat) : Prop :=
  getOpcode w = 2 ∨ (getOpcode w = 0 ∧ getFunct w = 8) ∨
    (getOpcode w = 4 ∧ s.RegFile[getRS w]? = s.RegFile[getRT w]?)

instance (s : Machine) (w : Nat) : Decidable (arms s w) := by
  unfold arms; exact inferInstance

/-! ## Delay-slot scheduler of the specification (§4.4)

Written from the specification's words, to be compared with `endOfCycle`. -/

/-- Scheduler states of the specification: `NONE`, `ARMED(target)`, `DUE(target)`. -/
inductive SpecSched where
  | NONE
  | ARMED (target : Nat)
  | DUE (target : Nat)
  deriving DecidableEq, Repr

/-- Transition rule of the specification, evaluated with the current `PC`:
the next scheduler state and the next PC (modulo 2^32). -/
def SpecSched.transition (σ : SpecSched) (PC : Nat) : SpecSched × Nat :=
  match σ with
  | .ARMED target => (.DUE target, (PC + 4) % 4294967296)
  | .DUE target => (.NONE, target)
  | .NONE => (.NONE, (PC + 4) % 4294967296)

/-- Reading of the locals `jumpState`, `jumpAddress` as a scheduler state:
2 is `ARMED(jumpAddress)`, 1 is `DUE(jumpAddress)`, 0 is `NONE`. -/
def schedOf (s : Machine) : Option SpecSched :=
  if s.jumpState = 2 then some (.ARMED s.jumpAddress)
  else if s.jumpState = 1 then some (.DUE s.jumpAddress)
  else if s.jumpState = 0 then some .NONE
  else none

/-! ## Sample programs and states -/

/-- A syscall handler that returns at once and changes nothing. -/
def idleSyscall : Syscall := fun _ rf m => some (rf, m)

/-- Thirty-four registers holding zero. -/
def zeroRegFile : List Int := List.replicate 34 0

/-- Memory holding `first` at address 0, `second` at address 4, zero elsewhere. -/
def twoWords (first second : Nat) : Nat → Nat :=
  fun address => if address = 0 then first else if address = 4 then second else 0

/-- Encoding of `J target` with the given 26-bit address field. -/
def encJ (address : Nat) : Nat := 2 * 2 ^ 26 + address

/-- Encoding of an I-type word: opcode, rs, rt, 16-bit immediate field. -/
def encI (opcode rs rt imm16 : Nat) : Nat :=
  opcode * 2 ^ 26 + rs * 2 ^ 21 + rt * 2 ^ 16 + imm16

/-- State at loop entry: zero registers, entry address 0, the two given words. -/
def sample (first second : Nat) : Machine := boot zeroRegFile (twoWords first second) 0

/-- Zero registers except register 1, which holds `INT_MAX`. -/
def maxRegFile : List Int := zeroRegFile.set 1 INT_MAX

/-- State at loop entry over `maxRegFile` with an empty memory. -/
def sampleMax : Machine := boot maxRegFile (fun _ => 0) 0

/-! ## Frame conditions used in the proofs -/

/-- The step from `s` to `s'` leaves memory and the program counter alone and
changes the register file by at most one `setRegValue` call. -/
def RegEffect (s s' : Machine) : Prop :=
  s'.mem = s.mem ∧ s'.ProgramCounter = s.ProgramCounter ∧
    (s'.RegFile = s.RegFile ∨ ∃ n v, setRegValue s.RegFile n v = .ok s'.RegFile)

/-- The step from `s` to `s'` leaves `jumpState` and `jumpAddress` alone. -/
def KeepsSched (s s' : Machine) : Prop :=
  s'.jumpState = s.jumpState ∧ s'.jumpAddress = s.jumpAddress

/-! ## The state in which the loop body stops

`cycle` gives the state at the end of an iteration, or the fault that stopped
the program. The definitions below also keep the machine state at the point
where the program stops. -/

/-- Result of a case together with the state at the point where the case is
left. If the case reaches its `break`, that is the state it produced. If it
stops the program, that is the state it was entered with: in every case but
the taken branch of `OP_BEQ`, each statement that can stop the program (a
`getRegValue` call, the overflow test, the bounds test inside the one
`setRegValue` call) comes before the first assignment to the register file
or to the jump locals. For `SyscallExe` the state at exit is not known to the
core and is given as the state at the call. -/
def stoppedAt (s : Machine) (r : Except Fault Machine) : Machine × Option Fault :=
  match r with
  | .ok s' => (s', none)
  | .error e => (s, some e)

/-- `case OP_BEQ` with the state at the point where it is left: the taken
branch assigns `jumpAddress` and `jumpState` before it calls
`setRegValue(31, ProgramCounter)`. -/
def traceBEQ (s : Machine) (rs rt : Nat) (immediate : Int) (address : Nat) :
    Machine × Option Fault :=
  match getRegValue s.RegFile rs with
  | .error e => (s, some e)
  | .ok a =>
    match getRegValue s.RegFile rt with
    | .error e => (s, some e)
    | .ok b =>
      if a = b then
        let s1 := { s with jumpAddress := shl32 address 2, jumpState := 2 }
        match setRegValue s1.RegFile 31 (wrap32 (s1.ProgramCounter : Int)) with
        | .error e => (s1, some e)
        | .ok rf => ({ s1 with RegFile := rf }, none)
      else stoppedAt s (caseADDI s rs rt immediate)

/-- The inner `switch (funct)` with the state at the point where it is left;
`default:` returns from `main` without any assignment. -/
def dispatchFunctTraced (SyscallExe : Syscall) (s : Machine) (CurrentInstruction : Nat) :
    Machine × Option Fault :=
  let rs := getRS CurrentInstruction
  let rt := getRT CurrentInstruction
  let rd := getRD CurrentInstruction
  let shamt := getShamt CurrentInstruction
  let funct := getFunct CurrentInstruction
  let code := getCode CurrentInstruction
  if funct = 8 then stoppedAt s (caseJR s rs)
  else if funct = 12 then stoppedAt s (caseSYSCALL SyscallExe s code)
  else if funct = 32 then stoppedAt s (caseADD s rs rt)
  else if funct = 33 then stoppedAt s (caseADDU s rs rt)
  else if funct = 34 then stoppedAt s (caseSUB s rs rt)
  else if funct = 35 then stoppedAt s (caseSUBU s rs rt)
  else if funct = 0 then stoppedAt s (caseSLL s rt rd shamt)
  else if funct = 16 then stoppedAt s (caseMFHI s rd)
  else if funct = 17 then stoppedAt s (caseMTHI s rs)
  else if funct = 18 then stoppedAt s (caseMFLO s rd)
  else if funct = 19 then stoppedAt s (caseMTLO s rs)
  else (s, some (.unknownFunct funct))

/-- The `switch (getOpcode(CurrentInstruction))` with the state at the point
where it is left; `default:` returns from `main` without any assignment. -/
def executeTraced (SyscallExe : Syscall) (s : Machine) (CurrentInstruction : Nat) :
    Machine × Option Fault :=
  let rs := getRS CurrentInstruction
  let rt := getRT CurrentInstruction
  let immediate := getImmediate CurrentInstruction
  let address := getAddress CurrentInstruction
  let opcode := getOpcode CurrentInstruction
  if opcode = 0 then dispatchFunctTraced SyscallExe s CurrentInstruction
  else if opcode = 2 then stoppedAt s (caseJUMP s address)
  else if opcode = 4 then traceBEQ s rs rt immediate address
  else if opcode = 8 then stoppedAt s (caseADDI s rs rt immediate)
  else if opcode = 9 then stoppedAt s (caseADDIU s rs rt immediate)
  else if opcode = 11 then (s, none)
  else if opcode = 12 then stoppedAt s (caseANDI s rs rt immediate)
  else if opcode = 13 then stoppedAt s (caseORI s rs rt immediate)
  else if opcode = 14 then stoppedAt s (caseXORI s rs rt immediate)
  else if opcode = 15 then stoppedAt s (caseLUI s rs rt immediate)
  else if opcode = 35 then stoppedAt s (caseLW s rs rt immediate)
  else (s, some (.unknownOpcode opcode))

/-- One iteration of the loop with the state it ends in: the state after the
code at `end:` when the loop goes on, the state at the `return 1` or
`exit(1)` when the program stops there. -/
def cycleTraced (SyscallExe : Syscall) (s : Machine) : Machine × Option Fault :=
  let CurrentInstruction := readWord s s.ProgramCounter
  if CurrentInstruction = 0 then (endOfCycle s, none)
  else
    match executeTraced SyscallExe s CurrentInstruction with
    | (s', none) => (endOfCycle s', none)
    | (s', some e) => (s', some e)

/-! ## Operation tables

Numeric values are those of `enum Opcode` and `enum Funct` (PROC.c lines
12–72). -/

/-- Opcodes with a `case` label in the outer switch: `OP_UNSPECIFIED`,
`OP_JUMP`, `OP_BEQ`, `OP_ADDI`, `OP_ADDIU`, `OP_SLTIU`, `OP_ANDI`, `OP_ORI`,
`OP_XORI`, `OP_LUI`, `OP_LW`. -/
def handledOpcodes : List Nat := [0, 2, 4, 8, 9, 11, 12, 13, 14, 15, 35]

/-- Funct values with a `case` label in the inner switch: `FUNCT_JR`,
`FUNCT_SYSCALL`, `FUNCT_ADD`, `FUNCT_ADDU`, `FUNCT_SUB`, `FUNCT_SUBU`,
`FUNCT_SLL`, `FUNCT_MFHI`, `FUNCT_MTHI`, `FUNCT_MFLO`, `FUNCT_MTLO`. -/
def handledFuncts : List Nat := [8, 12, 32, 33, 34, 35, 0, 16, 17, 18, 19]

/-- Modelled from the spec: opcodes of the operations the dispatch table of
the specification (§4.5) lists, with the special opcode 0: J, JAL, BEQ, BNE,
BLEZ, BGTZ, ADDI, ADDIU, SLTI, SLTIU, ANDI, ORI, XORI, LUI, LB, LH, LWL, LW,
LBU, LHU, LWR, SB, SH, SWL, SW, SWR. -/
def specTableOpcodes : List Nat :=
  [0, 2, 3, 4, 5, 6, 7, 8, 9, 10, 11, 12, 13, 14, 15,
    32, 33, 34, 35, 36, 37, 38, 40, 41, 42, 43, 46]

/-- Modelled from the spec: funct values of the opcode-0 operations the
dispatch table of the specification lists: SLL, SRL, SRA, SLLV, SRLV, SRAV,
JR, JALR, SYSCALL, MFHI, MTHI, MFLO, MTLO, ADD, ADDU, SUB, SUBU, AND, OR,
XOR, NOR, SLT, SLTU. -/
def specTableFuncts : List Nat :=
  [0, 2, 3, 4, 6, 7, 8, 9, 12, 16, 17, 18, 19, 32, 33, 34, 35, 36, 37, 38, 39, 42, 43]

/-- Data-transfer opcodes other than `OP_LW`: LB, LH, LWL, LBU, LHU, LWR, SB,
SH, SWL, SW, SWR. -/
def otherTransferOpcodes : List Nat := [32, 33, 34, 36, 37, 38, 40, 41, 42, 43, 46]

/-- A fault of one of the two `default:` labels. -/
def Fault.isDecodeError : Fault → Bool
  | .unknownFunct _ => true
  | .unknownOpcode _ => true
  | _ => false

/-- A fault raised by the bounds test of a register accessor, or the access
one past the end that the test lets through. -/
def Fault.isIndexFault : Fault → Bool
  | .regIndex _ => true
  | .pastTheEnd _ => true
  | _ => false

/-- The fault `e` comes from a register access at index `n` that the register
file `RegFile` does not hold: the index error proper, or the access one past
the end. -/
def IndexFaultAt (RegFile : List Int) (e : Fault) (n : Nat) : Prop :=
  (e = .regIndex n ∨ e = .pastTheEnd n) ∧ RegFile.length ≤ n

/-- The causes of a fault of the dispatch switch on word `w` in state `s`:
the overflow test, the syscall handler, a register access outside the
register file at one of the indices the switch uses (all at most 33), or one
of the two `default:` labels. -/
def FaultClass (s : Machine) (w : Nat) (e : Fault) : Prop :=
  e = .overflow ∨ e = .syscallExit ∨ (∃ n, n ≤ 33 ∧ IndexFaultAt s.RegFile e n) ∨
    (e = .unknownFunct (getFunct w) ∧ getOpcode w = 0 ∧ getFunct w ∉ handledFuncts) ∨
    (e = .unknownOpcode (getOpcode w) ∧ getOpcode w ∉ handledOpcodes)

/-- A result `r` and a result-with-state `t` describe the same outcome. -/
def Agrees (r : Except Fault Machine) (t : Machine × Option Fault) : Prop :=
  (∀ s', r = .ok s' ↔ t = (s', none)) ∧ (∀ e, r = .error e ↔ ∃ u, t = (u, some e))

/-- Word alignment of the program counter and of a pending jump target. -/
def Aligned (s : Machine) : Prop :=
  s.ProgramCounter % 4 = 0 ∧ (s.jumpState ≠ 0 → s.jumpAddress % 4 = 0)

/-! ## Further sample programs and states -/

/-- Encoding of an R-type word with opcode 0: rs, rt, rd, shamt, funct. -/
def encR (rs rt rd shamt funct : Nat) : Nat :=
  rs * 2 ^ 21 + rt * 2 ^ 16 + rd * 2 ^ 11 + shamt * 2 ^ 6 + funct

/-- Zero registers except register 1 holding 5 and register 2 holding 7. -/
def regFile57 : List Int := (zeroRegFile.set 1 5).set 2 7

/-- Zero registers except register 1 holding `INT_MIN` and register 2 holding 5. -/
def regFileMin : List Int := (zeroRegFile.set 1 INT_MIN).set 2 5

/-- Zero registers except register 1 holding 100. -/
def regFile100 : List Int := zeroRegFile.set 1 100

/-- Memory holding 99 at address 10 and 42 at address 108, zero elsewhere. -/
def memLW : Nat → Nat :=
  fun address => if address = 10 then 99 else if address = 108 then 42 else 0

/-- A state in the middle of a run: the given registers and memory, program
counter 8, no transfer pending. -/
def midRun (RegFile : List Int) (mem : Nat → Nat) : Machine :=
  { RegFile := RegFile, mem := mem, ProgramCounter := 8, jumpAddress := 0, jumpState := 0 }

/-! ## Shared lemmas: decoder and register file -/

theorem getRS_lt (w : Nat) : getRS w < 32 := by
  simp only [getRS, toU8, shl32, Nat.shiftLeft_eq, Nat.shiftRight_eq_div_pow]
  omega

theorem getRT_lt (w : Nat) : getRT w < 32 := by
  simp only [getRT, toU8, shl32, Nat.shiftLeft_eq, Nat.shiftRight_eq_div_pow]
  omega

theorem getRD_lt (w : Nat) : getRD w < 32 := by
  simp only [getRD, toU8, shl32, Nat.shiftLeft_eq, Nat.shiftRight_eq_div_pow]
  omega

theorem getImmediate_eq_low16 (w : Nat) : getImmediate w = ((w % 65536 : Nat) : Int) := by
  simp only [getImmediate, wrap32, shl32, Nat.shiftLeft_eq, Nat.shiftRight_eq_div_pow]
  omega

theorem wrap32_of_inInt32 {x : Int} (h : inInt32 x) : wrap32 x = x := by
  simp only [inInt32, INT_MIN, INT_MAX] at h
  unfold wrap32
  omega

theorem inInt32_wrap32 (x : Int) : inInt32 (wrap32 x) := by
  simp only [inInt32, INT_MIN, INT_MAX, wrap32]
  omega

theorem additionWillOverflow_iff {a b : Int} (ha : inInt32 a) (hb : inInt32 b) :
    additionWillOverflow a b = true ↔ ¬ inInt32 (a + b) := by
  simp only [additionWillOverflow, wrap32, inInt32, INT_MAX, INT_MIN] at *
  simp only [Bool.or_eq_true, Bool.and_eq_true, decide_eq_true_eq]
  omega

theorem getRegValue_of_lt {RegFile : List Int} {n : Nat} (h : n < RegFile.length) :
    getRegValue RegFile n = .ok (RegFile.get ⟨n, h⟩) := by
  unfold getRegValue
  rw [if_neg (by omega), List.getElem?_eq_getElem h]
  rfl

theorem getRegValue_ok_iff {RegFile : List Int} {n : Nat} {v : Int} :
    getRegValue RegFile n = .ok v ↔ RegFile[n]? = some v := by
  unfold getRegValue
  constructor
  · intro h
    split_ifs at h
    split at h
    · rename_i u hu
      cases h
      exact hu
    · cases h
  · intro h
    have hlt : n < RegFile.length := by
      by_contra hc
      rw [List.getElem?_eq_none (by omega)] at h
      cases h
    rw [if_neg (by omega), h]

theorem setRegValue_of_lt {RegFile : List Int} {n : Nat} (v : Int) (h0 : n ≠ 0)
    (h : n < RegFile.length) : setRegValue RegFile n v = .ok (RegFile.set n v) := by
  unfold setRegValue
  rw [if_neg h0, if_neg (by omega), if_pos h]

theorem setRegValue_ok_cases {RegFile rf : List Int} {n : Nat} {v : Int}
    (h : setRegValue RegFile n v = .ok rf) :
    (n = 0 ∧ rf = RegFile) ∨ (n ≠ 0 ∧ n < RegFile.length ∧ rf = RegFile.set n v) := by
  unfold setRegValue at h
  split_ifs at h with h0 h1 h2
  · left; exact ⟨h0, by cases h; rfl⟩
  · right; exact ⟨h0, h2, by cases h; rfl⟩

theorem setRegValue_keeps_zero {RegFile rf : List Int} {n : Nat} {v : Int}
    (h : setRegValue RegFile n v = .ok rf) : rf[0]? = RegFile[0]? := by
  rcases setRegValue_ok_cases h with ⟨_, rfl⟩ | ⟨h0, _, rfl⟩
  · rfl
  · exact List.getElem?_set_ne h0

theorem setRegValue_ok_spec {RegFile rf : List Int} {n : Nat} {v : Int}
    (h : setRegValue RegFile n v = .ok rf) :
    (n ≠ 0 → getRegValue rf n = .ok v) ∧ ∀ k, k ≠ n → rf[k]? = RegFile[k]? := by
  rcases setRegValue_ok_cases h with ⟨h0, rfl⟩ | ⟨_, hlt, rfl⟩
  · exact ⟨fun hne => absurd h0 hne, fun _ _ => rfl⟩
  · refine ⟨fun _ => ?_, fun k hk => List.getElem?_set_ne (Ne.symm hk)⟩
    rw [getRegValue_ok_iff]
    exact List.getElem?_set_self hlt

/-! ## Instruction decoder -/

/-- C1: for every 32-bit word the six field extractors return the bit ranges
31..26, 25..21, 20..16, 15..11, 10..6 and 5..0 of the word as unsigned
numbers (every word decodes), and the regression word 2112297087 decodes to
31, 15, 7, 3, 1, 63. -/
theorem decoder_fields (w : Nat) (hw : w < 4294967296) :
    getOpcode w = w / 2 ^ 26 % 2 ^ 6 ∧ getRS w = w / 2 ^ 21 % 2 ^ 5 ∧
    getRT w = w / 2 ^ 16 % 2 ^ 5 ∧ getRD w = w / 2 ^ 11 % 2 ^ 5 ∧
    getShamt w = w / 2 ^ 6 % 2 ^ 5 ∧ getFunct w = w % 2 ^ 6 ∧
    getOpcode 2112297087 = 31 ∧ getRS 2112297087 = 15 ∧ getRT 2112297087 = 7 ∧
    getRD 2112297087 = 3 ∧ getShamt 2112297087 = 1 ∧ getFunct 2112297087 = 63 := by
  simp only [getOpcode, getRS, getRT, getRD, getShamt, getFunct, toU8, shl32,
    Nat.shiftLeft_eq, Nat.shiftRight_eq_div_pow]
  refine ⟨?_, ?_, ?_, ?_, ?_, ?_, ?_⟩ <;> first | omega | decide

/-- Instance of C1 at the word of `ADDI $8, $0, -1`. -/
theorem decoder_fields_witness :
    537460735 < 4294967296 ∧ getOpcode 537460735 = 537460735 / 2 ^ 26 % 2 ^ 6 ∧
    getRT 537460735 = 537460735 / 2 ^ 16 % 2 ^ 5 :=
  ⟨by decide, (decoder_fields 537460735 (by decide)).1,
    (decoder_fields 537460735 (by decide)).2.2.1⟩

/-- C2: evaluation at the word of `ADDI $8, $0, -1` (0x2008FFFF), whose bit 15
is set: `getImmediate` returns 65535, the zero-extended low half-word, where
sign extension gives 65535 - 65536 = -1. -/
theorem getImmediate_not_sign_extended :
    537460735 / 2 ^ 15 % 2 = 1 ∧ getImmediate 537460735 = 65535 ∧
    getImmediate 537460735 ≠ ((537460735 % 65536 : Nat) : Int) - 65536 := by
  refine ⟨by decide, by decide, by decide⟩

/-! ## Overflow detector -/

/-- C3: on `int32_t` operands `additionWillOverflow a b` holds exactly when
the exact sum lies above `INT_MAX` or below `INT_MIN`; the subtraction each
branch evaluates (`INT_MAX - a` when `a >= 0`, `INT_MIN - a` when `a < 0`)
stays inside the `int32_t` range, so it does not wrap; and the predicate is
true at `(INT_MAX, 1)`, false at `(0, 0)`, true at `(INT_MIN, -1)`. -/
theorem additionWillOverflow_spec (a b : Int) (ha : inInt32 a) (hb : inInt32 b) :
    (additionWillOverflow a b = true ↔ (a + b > INT_MAX ∨ a + b < INT_MIN)) ∧
    (a ≥ 0 → inInt32 (INT_MAX - a) ∧ wrap32 (INT_MAX - a) = INT_MAX - a) ∧
    (a < 0 → inInt32 (INT_MIN - a) ∧ wrap32 (INT_MIN - a) = INT_MIN - a) ∧
    additionWillOverflow INT_MAX 1 = true ∧ additionWillOverflow 0 0 = false ∧
    additionWillOverflow INT_MIN (-1) = true := by
  refine ⟨?_, ?_, ?_, by decide, by decide, by decide⟩
  · simp only [additionWillOverflow, wrap32, inInt32, INT_MAX, INT_MIN] at *
    simp only [Bool.or_eq_true, Bool.and_eq_true, decide_eq_true_eq]
    omega
  · simp only [wrap32, inInt32, INT_MAX, INT_MIN] at *
    omega
  · simp only [wrap32, inInt32, INT_MAX, INT_MIN] at *
    omega

/-- Instance of C3 at `(INT_MAX, 1)`. -/
theorem additionWillOverflow_spec_witness :
    inInt32 INT_MAX ∧ inInt32 1 ∧
    (additionWillOverflow INT_MAX 1 = true ↔ (INT_MAX + 1 > INT_MAX ∨ INT_MAX + 1 < INT_MIN)) :=
  ⟨by decide, by decide, (additionWillOverflow_spec INT_MAX 1 (by decide) (by decide)).1⟩

/-! ## Register file -/

/-- C4: in a register file of 34 entries, for every index `1 ≤ n ≤ 33` and
value `v`, `setRegValue(n, v)` succeeds, a following `getRegValue(n)` returns
`v`, and every other register reads as before. -/
theorem setRegValue_then_getRegValue (RegFile : List Int) (n : Nat) (v : Int)
    (hlen : RegFile.length = RegFileEntries) (h1 : 1 ≤ n) (h33 : n ≤ 33) :
    ∃ rf, setRegValue RegFile n v = .ok rf ∧ getRegValue rf n = .ok v ∧
      rf.length = RegFile.length ∧
      ∀ m, m ≠ n → rf[m]? = RegFile[m]? ∧ getRegValue rf m = getRegValue RegFile m := by
  have hn : n < RegFile.length := by rw [hlen]; unfold RegFileEntries; omega
  refine ⟨RegFile.set n v, setRegValue_of_lt v (by omega) hn, ?_, List.length_set _ _ _, ?_⟩
  · rw [getRegValue_ok_iff]
    exact List.getElem?_set_self hn
  · intro m hm
    have hget : (RegFile.set n v)[m]? = RegFile[m]? := List.getElem?_set_ne (Ne.symm hm)
    refine ⟨hget, ?_⟩
    unfold getRegValue
    rw [hget, List.length_set]

/-- Instance of C4: writing 7 to register 5 of the all-zero register file. -/
theorem setRegValue_then_getRegValue_witness :
    zeroRegFile.length = RegFileEntries ∧ 1 ≤ 5 ∧ 5 ≤ 33 ∧
    ∃ rf, setRegValue zeroRegFile 5 7 = .ok rf ∧ getRegValue rf 5 = .ok 7 ∧
      rf.length = zeroRegFile.length ∧
      ∀ m, m ≠ 5 → rf[m]? = zeroRegFile[m]? ∧ getRegValue rf m = getRegValue zeroRegFile m :=
  ⟨by decide, by decide, by decide,
    setRegValue_then_getRegValue zeroRegFile 5 7 (by decide) (by decide) (by decide)⟩

/-- C5: at index 34 of a 34-entry register file neither accessor reports the
register index error: the test `n > 34` is false, and the access goes one
element past the end of the array. Indices 35..255 are rejected. -/
theorem regIndex_34_not_rejected :
    getRegValue zeroRegFile 34 = .error (.pastTheEnd 34) ∧
    setRegValue zeroRegFile 34 7 = .error (.pastTheEnd 34) ∧
    getRegValue zeroRegFile 34 ≠ .error (.regIndex 34) ∧
    setRegValue zeroRegFile 34 7 ≠ .error (.regIndex 34) ∧
    getRegValue zeroRegFile 35 = .error (.regIndex 35) ∧
    setRegValue zeroRegFile 35 7 = .error (.regIndex 35) := by
  refine ⟨rfl, rfl, ?_, ?_, rfl, rfl⟩
  · intro h; cases h
  · intro h; cases h

/-! ## Shared lemmas: what each handler touches -/

theorem caseADD_effect {s s' : Machine} {rs rt : Nat}
    (h : caseADD s rs rt = .ok s') : RegEffect s s' ∧ KeepsSched s s' := by
  simp only [caseADD, bind, Except.bind] at h
  repeat' split at h
  all_goals first
    | (exfalso; simp at h; done)
    | (cases h; exact ⟨⟨rfl, rfl, Or.inr ⟨_, _, by assumption⟩⟩, rfl, rfl⟩)

theorem caseADDU_effect {s s' : Machine} {rs rt : Nat}
    (h : caseADDU s rs rt = .ok s') : RegEffect s s' ∧ KeepsSched s s' := by
  simp only [caseADDU, bind, Except.bind] at h
  repeat' split at h
  all_goals first
    | (exfalso; simp at h; done)
    | (cases h; exact ⟨⟨rfl, rfl, Or.inr ⟨_, _, by assumption⟩⟩, rfl, rfl⟩)

theorem caseSUB_effect {s s' : Machine} {rs rt : Nat}
    (h : caseSUB s rs rt = .ok s') : RegEffect s s' ∧ KeepsSched s s' := by
  simp only [caseSUB, bind, Except.bind] at h
  repeat' split at h
  all_goals first
    | (exfalso; simp at h; done)
    | (cases h; exact ⟨⟨rfl, rfl, Or.inr ⟨_, _, by assumption⟩⟩, rfl, rfl⟩)

theorem caseSUBU_effect {s s' : Machine} {rs rt : Nat}
    (h : caseSUBU s rs rt = .ok s') : RegEffect s s' ∧ KeepsSched s s' := by
  simp only [caseSUBU, bind, Except.bind] at h
  repeat' split at h
  all_goals first
    | (exfalso; simp at h; done)
    | (cases h; exact ⟨⟨rfl, rfl, Or.inr ⟨_, _, by assumption⟩⟩, rfl, rfl⟩)

theorem caseSLL_effect {s s' : Machine} {rt rd shamt : Nat}
    (h : caseSLL s rt rd shamt = .ok s') : RegEffect s s' ∧ KeepsSched s s' := by
  simp only [caseSLL, bind, Except.bind] at h
  repeat' split at h
  all_goals first
    | (exfalso; simp at h; done)
    | (cases h; exact ⟨⟨rfl, rfl, Or.inr ⟨_, _, by assumption⟩⟩, rfl, rfl⟩)

theorem caseMFHI_effect {s s' : Machine} {rd : Nat}
    (h : caseMFHI s rd = .ok s') : RegEffect s s' ∧ KeepsSched s s' := by
  simp only [caseMFHI, bind, Except.bind] at h
  repeat' split at h
  all_goals first
    | (exfalso; simp at h; done)
    | (cases h; exact ⟨⟨rfl, rfl, Or.inr ⟨_, _, by assumption⟩⟩, rfl, rfl⟩)

theorem caseMTHI_effect {s s' : Machine} {rs : Nat}
    (h : caseMTHI s rs = .ok s') : RegEffect s s' ∧ KeepsSched s s' := by
  simp only [caseMTHI, bind, Except.bind] at h
  repeat' split at h
  all_goals first
    | (exfalso; simp at h; done)
    | (cases h; exact ⟨⟨rfl, rfl, Or.inr ⟨_, _, by assumption⟩⟩, rfl, rfl⟩)

theorem caseMFLO_effect {s s' : Machine} {rd : Nat}
    (h : caseMFLO s rd = .ok s') : RegEffect s s' ∧ KeepsSched s s' := by
  simp only [caseMFLO, bind, Except.bind] at h
  repeat' split at h
  all_goals first
    | (exfalso; simp at h; done)
    | (cases h; exact ⟨⟨rfl, rfl, Or.inr ⟨_, _, by assumption⟩⟩, rfl, rfl⟩)

theorem caseMTLO_effect {s s' : Machine} {rs : Nat}
    (h : caseMTLO s rs = .ok s') : RegEffect s s' ∧ KeepsSched s s' := by
  simp only [caseMTLO, bind, Except.bind] at h
  repeat' split at h
  all_goals first
    | (exfalso; simp at h; done)
    | (cases h; exact ⟨⟨rfl, rfl, Or.inr ⟨_, _, by assumption⟩⟩, rfl, rfl⟩)

theorem caseADDI_effect {s s' : Machine} {rs rt : Nat} {imm : Int}
    (h : caseADDI s rs rt imm = .ok s') : RegEffect s s' ∧ KeepsSched s s' := by
  simp only [caseADDI, bind, Except.bind] at h
  repeat' split at h
  all_goals first
    | (exfalso; simp at h; done)
    | (cases h; exact ⟨⟨rfl, rfl, Or.inr ⟨_, _, by assumption⟩⟩, rfl, rfl⟩)

theorem caseADDIU_effect {s s' : Machine} {rs rt : Nat} {imm : Int}
    (h : caseADDIU s rs rt imm = .ok s') : RegEffect s s' ∧ KeepsSched s s' := by
  simp only [caseADDIU, bind, Except.bind] at h
  repeat' split at h
  all_goals first
    | (exfalso; simp at h; done)
    | (cases h; exact ⟨⟨rfl, rfl, Or.inr ⟨_, _, by assumption⟩⟩, rfl, rfl⟩)

theorem caseANDI_effect {s s' : Machine} {rs rt : Nat} {imm : Int}
    (h : caseANDI s rs rt imm = .ok s') : RegEffect s s' ∧ KeepsSched s s' := by
  simp only [caseANDI, bind, Except.bind] at h
  repeat' split at h
  all_goals first
    | (exfalso; simp at h; done)
    | (cases h; exact ⟨⟨rfl, rfl, Or.inr ⟨_, _, by assumption⟩⟩, rfl, rfl⟩)

theorem caseORI_effect {s s' : Machine} {rs rt : Nat} {imm : Int}
    (h : caseORI s rs rt imm = .ok s') : RegEffect s s' ∧ KeepsSched s s' := by
  simp only [caseORI, bind, Except.bind] at h
  repeat' split at h
  all_goals first
    | (exfalso; simp at h; done)
    | (cases h; exact ⟨⟨rfl, rfl, Or.inr ⟨_, _, by assumption⟩⟩, rfl, rfl⟩)

theorem caseXORI_effect {s s' : Machine} {rs rt : Nat} {imm : Int}
    (h : caseXORI s rs rt imm = .ok s') : RegEffect s s' ∧ KeepsSched s s' := by
  simp only [caseXORI, bind, Except.bind] at h
  repeat' split at h
  all_goals first
    | (exfalso; simp at h; done)
    | (cases h; exact ⟨⟨rfl, rfl, Or.inr ⟨_, _, by assumption⟩⟩, rfl, rfl⟩)

theorem caseLUI_effect {s s' : Machine} {rs rt : Nat} {imm : Int}
    (h : caseLUI s rs rt imm = .ok s') : RegEffect s s' ∧ KeepsSched s s' := by
  simp only [caseLUI, bind, Except.bind] at h
  repeat' split at h
  all_goals first
    | (exfalso; simp at h; done)
    | (cases h; exact ⟨⟨rfl, rfl, Or.inr ⟨_, _, by assumption⟩⟩, rfl, rfl⟩)

theorem caseLW_effect {s s' : Machine} {rs rt : Nat} {imm : Int}
    (h : caseLW s rs rt imm = .ok s') : RegEffect s s' ∧ KeepsSched s s' := by
  simp only [caseLW, bind, Except.bind] at h
  repeat' split at h
  all_goals first
    | (exfalso; simp at h; done)
    | (cases h; exact ⟨⟨rfl, rfl, Or.inr ⟨_, _, by assumption⟩⟩, rfl, rfl⟩)

theorem caseJR_effect {s s' : Machine} {rs : Nat}
    (h : caseJR s rs = .ok s') : RegEffect s s' ∧ s'.jumpState = 2 := by
  simp only [caseJR, bind, Except.bind] at h
  repeat' split at h
  all_goals first
    | (exfalso; simp at h; done)
    | (cases h; exact ⟨⟨rfl, rfl, Or.inl rfl⟩, rfl⟩)

theorem caseJUMP_effect {s s' : Machine} {address : Nat}
    (h : caseJUMP s address = .ok s') : RegEffect s s' ∧ s'.jumpState = 2 := by
  unfold caseJUMP at h
  cases h
  exact ⟨⟨rfl, rfl, Or.inl rfl⟩, rfl⟩

theorem caseBEQ_effect {s s' : Machine} {rs rt : Nat} {imm : Int} {address : Nat}
    (h : caseBEQ s rs rt imm address = .ok s') :
    RegEffect s s' ∧ (KeepsSched s s' ∨ s'.jumpState = 2) ∧
      (s.RegFile[rs]? ≠ s.RegFile[rt]? → KeepsSched s s') := by
  simp only [caseBEQ, bind, Except.bind] at h
  split at h
  · exfalso; simp at h
  · rename_i a ha
    split at h
    · exfalso; simp at h
    · rename_i b hb
      rw [getRegValue_ok_iff] at ha hb
      split at h
      · rename_i hab
        split at h
        · exfalso; simp at h
        · cases h
          refine ⟨⟨rfl, rfl, Or.inr ⟨_, _, by assumption⟩⟩, Or.inr rfl, ?_⟩
          intro hne
          exact absurd (by rw [ha, hb, hab]) hne
      · have he := caseADDI_effect h
        exact ⟨he.1, Or.inl he.2, fun _ => he.2⟩

theorem caseSYSCALL_effect {SyscallExe : Syscall} {s s' : Machine} {code : Nat}
    (h : caseSYSCALL SyscallExe s code = .ok s') :
    s'.ProgramCounter = s.ProgramCounter ∧ KeepsSched s s' := by
  unfold caseSYSCALL at h
  split at h
  · cases h; exact ⟨rfl, rfl, rfl⟩
  · cases h

/-- Case analysis of the dispatch switch: a property of the result of every
handler, each under the opcode and funct values that select it, is a property
of `execute`. -/
theorem execute_cases {SyscallExe : Syscall} {s : Machine} {w : Nat}
    {P : Except Fault Machine → Prop}
    (hJR : getOpcode w = 0 → getFunct w = 8 → P (caseJR s (getRS w)))
    (hSYSCALL : getOpcode w = 0 → getFunct w = 12 → P (caseSYSCALL SyscallExe s (getCode w)))
    (hADD : getOpcode w = 0 → getFunct w = 32 → P (caseADD s (getRS w) (getRT w)))
    (hADDU : getOpcode w = 0 → getFunct w = 33 → P (caseADDU s (getRS w) (getRT w)))
    (hSUB : getOpcode w = 0 → getFunct w = 34 → P (caseSUB s (getRS w) (getRT w)))
    (hSUBU : getOpcode w = 0 → getFunct w = 35 → P (caseSUBU s (getRS w) (getRT w)))
    (hSLL : getOpcode w = 0 → getFunct w = 0 → P (caseSLL s (getRT w) (getRD w) (getShamt w)))
    (hMFHI : getOpcode w = 0 → getFunct w = 16 → P (caseMFHI s (getRD w)))
    (hMTHI : getOpcode w = 0 → getFunct w = 17 → P (caseMTHI s (getRS w)))
    (hMFLO : getOpcode w = 0 → getFunct w = 18 → P (caseMFLO s (getRD w)))
    (hMTLO : getOpcode w = 0 → getFunct w = 19 → P (caseMTLO s (getRS w)))
    (hFunct : getOpcode w = 0 → getFunct w ∉ [8, 12, 32, 33, 34, 35, 0, 16, 17, 18, 19] →
      P (.error (.unknownFunct (getFunct w))))
    (hJUMP : getOpcode w = 2 → P (caseJUMP s (getAddress w)))
    (hBEQ : getOpcode w = 4 → P (caseBEQ s (getRS w) (getRT w) (getImmediate w) (getAddress w)))
    (hADDI : getOpcode w = 8 → P (caseADDI s (getRS w) (getRT w) (getImmediate w)))
    (hADDIU : getOpcode w = 9 → P (caseADDIU s (getRS w) (getRT w) (getImmediate w)))
    (hSLTIU : getOpcode w = 11 → P (.ok s))
    (hANDI : getOpcode w = 12 → P (caseANDI s (getRS w) (getRT w) (getImmediate w)))
    (hORI : getOpcode w = 13 → P (caseORI s (getRS w) (getRT w) (getImmediate w)))
    (hXORI : getOpcode w = 14 → P (caseXORI s (getRS w) (getRT w) (getImmediate w)))
    (hLUI : getOpcode w = 15 → P (caseLUI s (getRS w) (getRT w) (getImmediate w)))
    (hLW : getOpcode w = 35 → P (caseLW s (getRS w) (getRT w) (getImmediate w)))
    (hOpcode : getOpcode w ∉ [0, 2, 4, 8, 9, 11, 12, 13, 14, 15, 35] →
      P (.error (.unknownOpcode (getOpcode w)))) :
    P (execute SyscallExe s w) := by
  unfold execute dispatchFunct
  dsimp only
  by_cases c0 : getOpcode w = 0
  · rw [if_pos c0]
    by_cases f8 : getFunct w = 8
    · rw [if_pos f8]; exact hJR c0 f8
    rw [if_neg f8]
    by_cases f12 : getFunct w = 12
    · rw [if_pos f12]; exact hSYSCALL c0 f12
    rw [if_neg f12]
    by_cases f32 : getFunct w = 32
    · rw [if_pos f32]; exact hADD c0 f32
    rw [if_neg f32]
    by_cases f33 : getFunct w = 33
    · rw [if_pos f33]; exact hADDU c0 f33
    rw [if_neg f33]
    by_cases f34 : getFunct w = 34
    · rw [if_pos f34]; exact hSUB c0 f34
    rw [if_neg f34]
    by_cases f35 : getFunct w = 35
    · rw [if_pos f35]; exact hSUBU c0 f35
    rw [if_neg f35]
    by_cases f0 : getFunct w = 0
    · rw [if_pos f0]; exact hSLL c0 f0
    rw [if_neg f0]
    by_cases f16 : getFunct w = 16
    · rw [if_pos f16]; exact hMFHI c0 f16
    rw [if_neg f16]
    by_cases f17 : getFunct w = 17
    · rw [if_pos f17]; exact hMTHI c0 f17
    rw [if_neg f17]
    by_cases f18 : getFunct w = 18
    · rw [if_pos f18]; exact hMFLO c0 f18
    rw [if_neg f18]
    by_cases f19 : getFunct w = 19
    · rw [if_pos f19]; exact hMTLO c0 f19
    rw [if_neg f19]
    exact hFunct c0 (by
      intro hm
      simp only [List.mem_cons, List.mem_singleton, List.not_mem_nil, or_false] at hm
      omega)
  rw [if_neg c0]
  by_cases c2 : getOpcode w = 2
  · rw [if_pos c2]; exact hJUMP c2
  rw [if_neg c2]
  by_cases c4 : getOpcode w = 4
  · rw [if_pos c4]; exact hBEQ c4
  rw [if_neg c4]
  by_cases c8 : getOpcode w = 8
  · rw [if_pos c8]; exact hADDI c8
  rw [if_neg c8]
  by_cases c9 : getOpcode w = 9
  · rw [if_pos c9]; exact hADDIU c9
  rw [if_neg c9]
  by_cases c11 : getOpcode w = 11
  · rw [if_pos c11]; exact hSLTIU c11
  rw [if_neg c11]
  by_cases c12 : getOpcode w = 12
  · rw [if_pos c12]; exact hANDI c12
  rw [if_neg c12]
  by_cases c13 : getOpcode w = 13
  · rw [if_pos c13]; exact hORI c13
  rw [if_neg c13]
  by_cases c14 : getOpcode w = 14
  · rw [if_pos c14]; exact hXORI c14
  rw [if_neg c14]
  by_cases c15 : getOpcode w = 15
  · rw [if_pos c15]; exact hLUI c15
  rw [if_neg c15]
  by_cases c35 : getOpcode w = 35
  · rw [if_pos c35]; exact hLW c35
  rw [if_neg c35]
  exact hOpcode (by
      intro hm
      simp only [List.mem_cons, List.mem_singleton, List.not_mem_nil, or_false] at hm
      omega)

/-- Any handler other than the syscall changes the register file by at most
one `setRegValue` call and nothing else of the memory or the PC. -/
theorem execute_regEffect {SyscallExe : Syscall} {s s' : Machine} {w : Nat}
    (hsys : ¬ isSyscall w) (h : execute SyscallExe s w = .ok s') : RegEffect s s' := by
  revert h
  apply execute_cases (P := fun r => r = .ok s' → RegEffect s s')
  case hSYSCALL => exact fun c f _ => absurd ⟨c, f⟩ hsys
  case hFunct => exact fun _ _ h => by cases h
  case hOpcode => exact fun _ h => by cases h
  case hSLTIU => exact fun _ h => by cases h; exact ⟨rfl, rfl, Or.inl rfl⟩
  case hJR => exact fun _ _ h => (caseJR_effect h).1
  case hADD => exact fun _ _ h => (caseADD_effect h).1
  case hADDU => exact fun _ _ h => (caseADDU_effect h).1
  case hSUB => exact fun _ _ h => (caseSUB_effect h).1
  case hSUBU => exact fun _ _ h => (caseSUBU_effect h).1
  case hSLL => exact fun _ _ h => (caseSLL_effect h).1
  case hMFHI => exact fun _ _ h => (caseMFHI_effect h).1
  case hMTHI => exact fun _ _ h => (caseMTHI_effect h).1
  case hMFLO => exact fun _ _ h => (caseMFLO_effect h).1
  case hMTLO => exact fun _ _ h => (caseMTLO_effect h).1
  case hJUMP => exact fun _ h => (caseJUMP_effect h).1
  case hBEQ => exact fun _ h => (caseBEQ_effect h).1
  case hADDI => exact fun _ h => (caseADDI_effect h).1
  case hADDIU => exact fun _ h => (caseADDIU_effect h).1
  case hANDI => exact fun _ h => (caseANDI_effect h).1
  case hORI => exact fun _ h => (caseORI_effect h).1
  case hXORI => exact fun _ h => (caseXORI_effect h).1
  case hLUI => exact fun _ h => (caseLUI_effect h).1
  case hLW => exact fun _ h => (caseLW_effect h).1

/-- No handler touches the program counter; `jumpState` is either left alone
(together with `jumpAddress`) or set to 2. -/
theorem execute_sched {SyscallExe : Syscall} {s s' : Machine} {w : Nat}
    (h : execute SyscallExe s w = .ok s') :
    s'.ProgramCounter = s.ProgramCounter ∧ (KeepsSched s s' ∨ s'.jumpState = 2) := by
  revert h
  apply execute_cases
    (P := fun r => r = .ok s' →
      s'.ProgramCounter = s.ProgramCounter ∧ (KeepsSched s s' ∨ s'.jumpState = 2))
  case hSYSCALL =>
    exact fun _ _ h => ⟨(caseSYSCALL_effect h).1, Or.inl (caseSYSCALL_effect h).2⟩
  case hFunct => exact fun _ _ h => by cases h
  case hOpcode => exact fun _ h => by cases h
  case hSLTIU => exact fun _ h => by cases h; exact ⟨rfl, Or.inl ⟨rfl, rfl⟩⟩
  case hJR => exact fun _ _ h => ⟨(caseJR_effect h).1.2.1, Or.inr (caseJR_effect h).2⟩
  case hJUMP => exact fun _ h => ⟨(caseJUMP_effect h).1.2.1, Or.inr (caseJUMP_effect h).2⟩
  case hBEQ => exact fun _ h => ⟨(caseBEQ_effect h).1.2.1, (caseBEQ_effect h).2.1⟩
  case hADD => exact fun _ _ h => ⟨(caseADD_effect h).1.2.1, Or.inl (caseADD_effect h).2⟩
  case hADDU => exact fun _ _ h => ⟨(caseADDU_effect h).1.2.1, Or.inl (caseADDU_effect h).2⟩
  case hSUB => exact fun _ _ h => ⟨(caseSUB_effect h).1.2.1, Or.inl (caseSUB_effect h).2⟩
  case hSUBU => exact fun _ _ h => ⟨(caseSUBU_effect h).1.2.1, Or.inl (caseSUBU_effect h).2⟩
  case hSLL => exact fun _ _ h => ⟨(caseSLL_effect h).1.2.1, Or.inl (caseSLL_effect h).2⟩
  case hMFHI => exact fun _ _ h => ⟨(caseMFHI_effect h).1.2.1, Or.inl (caseMFHI_effect h).2⟩
  case hMTHI => exact fun _ _ h => ⟨(caseMTHI_effect h).1.2.1, Or.inl (caseMTHI_effect h).2⟩
  case hMFLO => exact fun _ _ h => ⟨(caseMFLO_effect h).1.2.1, Or.inl (caseMFLO_effect h).2⟩
  case hMTLO => exact fun _ _ h => ⟨(caseMTLO_effect h).1.2.1, Or.inl (caseMTLO_effect h).2⟩
  case hADDI => exact fun _ h => ⟨(caseADDI_effect h).1.2.1, Or.inl (caseADDI_effect h).2⟩
  case hADDIU => exact fun _ h => ⟨(caseADDIU_effect h).1.2.1, Or.inl (caseADDIU_effect h).2⟩
  case hANDI => exact fun _ h => ⟨(caseANDI_effect h).1.2.1, Or.inl (caseANDI_effect h).2⟩
  case hORI => exact fun _ h => ⟨(caseORI_effect h).1.2.1, Or.inl (caseORI_effect h).2⟩
  case hXORI => exact fun _ h => ⟨(caseXORI_effect h).1.2.1, Or.inl (caseXORI_effect h).2⟩
  case hLUI => exact fun _ h => ⟨(caseLUI_effect h).1.2.1, Or.inl (caseLUI_effect h).2⟩
  case hLW => exact fun _ h => ⟨(caseLW_effect h).1.2.1, Or.inl (caseLW_effect h).2⟩

/-- A handler that does not arm leaves `jumpState` and `jumpAddress` alone. -/
theorem execute_keepsSched {SyscallExe : Syscall} {s s' : Machine} {w : Nat}
    (harm : ¬ arms s w) (h : execute SyscallExe s w = .ok s') : KeepsSched s s' := by
  unfold arms at harm
  revert h
  apply execute_cases (P := fun r => r = .ok s' → KeepsSched s s')
  case hSYSCALL => exact fun _ _ h => (caseSYSCALL_effect h).2
  case hFunct => exact fun _ _ h => by cases h
  case hOpcode => exact fun _ h => by cases h
  case hSLTIU => exact fun _ h => by cases h; exact ⟨rfl, rfl⟩
  case hJR => exact fun c f _ => absurd (Or.inr (Or.inl ⟨c, f⟩)) harm
  case hJUMP => exact fun c _ => absurd (Or.inl c) harm
  case hBEQ =>
    exact fun c h => (caseBEQ_effect h).2.2 (fun heq => harm (Or.inr (Or.inr ⟨c, heq⟩)))
  case hADD => exact fun _ _ h => (caseADD_effect h).2
  case hADDU => exact fun _ _ h => (caseADDU_effect h).2
  case hSUB => exact fun _ _ h => (caseSUB_effect h).2
  case hSUBU => exact fun _ _ h => (caseSUBU_effect h).2
  case hSLL => exact fun _ _ h => (caseSLL_effect h).2
  case hMFHI => exact fun _ _ h => (caseMFHI_effect h).2
  case hMTHI => exact fun _ _ h => (caseMTHI_effect h).2
  case hMFLO => exact fun _ _ h => (caseMFLO_effect h).2
  case hMTLO => exact fun _ _ h => (caseMTLO_effect h).2
  case hADDI => exact fun _ h => (caseADDI_effect h).2
  case hADDIU => exact fun _ h => (caseADDIU_effect h).2
  case hANDI => exact fun _ h => (caseANDI_effect h).2
  case hORI => exact fun _ h => (caseORI_effect h).2
  case hXORI => exact fun _ h => (caseXORI_effect h).2
  case hLUI => exact fun _ h => (caseLUI_effect h).2
  case hLW => exact fun _ h => (caseLW_effect h).2

/-! ## Shared lemmas: the loop -/

theorem endOfCycle_frame (s : Machine) :
    (endOfCycle s).RegFile = s.RegFile ∧ (endOfCycle s).mem = s.mem ∧
    (endOfCycle s).jumpAddress = s.jumpAddress := by
  unfold endOfCycle
  dsimp only
  split_ifs <;> exact ⟨rfl, rfl, rfl⟩

theorem endOfCycle_PC (s : Machine) :
    (endOfCycle s).ProgramCounter =
      if s.jumpState = 1 then s.jumpAddress else (s.ProgramCounter + 4) % 4294967296 := by
  unfold endOfCycle
  dsimp only
  split_ifs <;> first | rfl | omega

theorem endOfCycle_jumpState (s : Machine) :
    (endOfCycle s).jumpState =
      if s.jumpState = 2 then 1 else if s.jumpState = 1 then 0 else s.jumpState := by
  unfold endOfCycle
  dsimp only
  split_ifs <;> first | rfl | (dsimp only; omega)

theorem cycle_ok_cases {SyscallExe : Syscall} {s s' : Machine}
    (h : cycle SyscallExe s = .ok s') :
    (readWord s s.ProgramCounter = 0 ∧ s' = endOfCycle s) ∨
    (readWord s s.ProgramCounter ≠ 0 ∧
      ∃ t, execute SyscallExe s (readWord s s.ProgramCounter) = .ok t ∧ s' = endOfCycle t) := by
  unfold cycle at h
  dsimp only at h
  split_ifs at h with h0
  · left; cases h; exact ⟨h0, rfl⟩
  · right
    refine ⟨h0, ?_⟩
    simp only [bind, Except.bind] at h
    split at h
    · cases h
    · rename_i t ht
      cases h
      exact ⟨t, ht, rfl⟩

theorem execute_JUMP {SyscallExe : Syscall} {s : Machine} {w : Nat} (h : getOpcode w = 2) :
    execute SyscallExe s w = caseJUMP s (getAddress w) := by
  unfold execute
  dsimp only
  rw [if_neg (by omega), if_pos h]

theorem execute_ADDI {SyscallExe : Syscall} {s : Machine} {w : Nat} (h : getOpcode w = 8) :
    execute SyscallExe s w = caseADDI s (getRS w) (getRT w) (getImmediate w) := by
  unfold execute
  dsimp only
  rw [if_neg (by omega), if_neg (by omega), if_neg (by omega), if_pos h]

theorem execute_ADDIU {SyscallExe : Syscall} {s : Machine} {w : Nat} (h : getOpcode w = 9) :
    execute SyscallExe s w = caseADDIU s (getRS w) (getRT w) (getImmediate w) := by
  unfold execute
  dsimp only
  rw [if_neg (by omega), if_neg (by omega), if_neg (by omega), if_neg (by omega), if_pos h]

theorem getOpcode_ne_zero {w : Nat} (h : getOpcode w ≠ 0) : w ≠ 0 := by
  intro hw
  rw [hw] at h
  exact h (by decide)

/-! ## Zero register -/

/-- C6: `setRegValue(0, v)` returns the register file as it was, for every
register file and value; and for every instruction word other than a
SYSCALL, if register 0 reads 0 before the dispatch switch (respectively
before a whole fetch-execute cycle) it reads 0 after it. -/
theorem zero_register_hardwired :
    (∀ (RegFile : List Int) (v : Int), setRegValue RegFile 0 v = .ok RegFile) ∧
    (∀ (SyscallExe : Syscall) (s s' : Machine) (w : Nat), ¬ isSyscall w →
      getRegValue s.RegFile 0 = .ok 0 → execute SyscallExe s w = .ok s' →
      getRegValue s'.RegFile 0 = .ok 0) ∧
    (∀ (SyscallExe : Syscall) (s s' : Machine), ¬ isSyscall (readWord s s.ProgramCounter) →
      getRegValue s.RegFile 0 = .ok 0 → cycle SyscallExe s = .ok s' →
      getRegValue s'.RegFile 0 = .ok 0) := by
  have hexec : ∀ (SyscallExe : Syscall) (s s' : Machine) (w : Nat), ¬ isSyscall w →
      getRegValue s.RegFile 0 = .ok 0 → execute SyscallExe s w = .ok s' →
      getRegValue s'.RegFile 0 = .ok 0 := by
    intro SyscallExe s s' w hsys h0 h
    rw [getRegValue_ok_iff] at h0 ⊢
    rcases (execute_regEffect hsys h).2.2 with hrf | ⟨n, v, hset⟩
    · rw [hrf]; exact h0
    · rw [setRegValue_keeps_zero hset]; exact h0
  refine ⟨fun _ _ => rfl, hexec, ?_⟩
  intro SyscallExe s s' hsys h0 h
  rcases cycle_ok_cases h with ⟨_, rfl⟩ | ⟨_, t, ht, rfl⟩
  · rw [(endOfCycle_frame s).1]; exact h0
  · rw [(endOfCycle_frame t).1]; exact hexec SyscallExe s t _ hsys h0 ht

/-- Instance of C6: the cycle executing `ADDIU $0, $0, 5`. -/
theorem zero_register_hardwired_witness :
    ¬ isSyscall (readWord (sample (encI 9 0 0 5) 0) (sample (encI 9 0 0 5) 0).ProgramCounter) ∧
    getRegValue (sample (encI 9 0 0 5) 0).RegFile 0 = .ok 0 ∧
    cycle idleSyscall (sample (encI 9 0 0 5) 0) =
      .ok ⟨zeroRegFile, twoWords (encI 9 0 0 5) 0, 4, 0, 0⟩ ∧
    getRegValue zeroRegFile 0 = .ok 0 :=
  ⟨by decide, rfl, rfl,
    zero_register_hardwired.2.2 idleSyscall (sample (encI 9 0 0 5) 0)
      ⟨zeroRegFile, twoWords (encI 9 0 0 5) 0, 4, 0, 0⟩ (by decide) rfl rfl⟩

/-! ## The all-zero instruction word -/

/-- C7 as stated fails: with the all-zero word at the entry address 0 and
`ADDIU $1, $0, 5` at address 4, a run of budget 2 executes two cycles,
fetching at 0 and then at 4, ends with the program counter at 8 and has
written 5 to register 1. -/
theorem zero_word_does_not_halt :
    readWord (sample 0 (encI 9 0 1 5)) (sample 0 (encI 9 0 1 5)).ProgramCounter = 0 ∧
    (run idleSyscall 2 (sample 0 (encI 9 0 1 5))).1 = [0, 4] ∧
    ∃ s', (run idleSyscall 2 (sample 0 (encI 9 0 1 5))).2 = .ok s' ∧
      s'.ProgramCounter = 8 ∧ getRegValue s'.RegFile 1 = .ok 5 ∧
      s'.RegFile ≠ (sample 0 (encI 9 0 1 5)).RegFile :=
  ⟨rfl, rfl, _, rfl, rfl, rfl, by decide⟩

/-- C7 amended: a cycle that fetches the all-zero word never ends the run. It
skips the dispatch switch, so the register file, the memory and
`jumpAddress` are unchanged; the end-of-cycle update applies as in any
cycle (the program counter becomes `jumpAddress` when `jumpState` is 1 and
PC + 4 modulo 2^32 otherwise); the cycle is one iteration of the loop, which
goes on from the updated state with the rest of the budget. -/
theorem zero_word_cycle (SyscallExe : Syscall) (s : Machine)
    (h : readWord s s.ProgramCounter = 0) :
    cycle SyscallExe s = .ok (endOfCycle s) ∧
    (endOfCycle s).RegFile = s.RegFile ∧ (endOfCycle s).mem = s.mem ∧
    (endOfCycle s).jumpAddress = s.jumpAddress ∧
    (endOfCycle s).ProgramCounter =
      (if s.jumpState = 1 then s.jumpAddress else (s.ProgramCounter + 4) % 4294967296) ∧
    ∀ n, run SyscallExe (n + 1) s =
      (s.ProgramCounter :: (run SyscallExe n (endOfCycle s)).1,
        (run SyscallExe n (endOfCycle s)).2) := by
  have hc : cycle SyscallExe s = .ok (endOfCycle s) := by
    unfold cycle
    dsimp only
    rw [if_pos h]
  refine ⟨hc, (endOfCycle_frame s).1, (endOfCycle_frame s).2.1, (endOfCycle_frame s).2.2,
    endOfCycle_PC s, ?_⟩
  intro n
  rw [run, hc]

/-- Instance of C7 amended at the state of the counterexample. -/
theorem zero_word_cycle_witness :
    readWord (sample 0 (encI 9 0 1 5)) (sample 0 (encI 9 0 1 5)).ProgramCounter = 0 ∧
    cycle idleSyscall (sample 0 (encI 9 0 1 5)) = .ok (endOfCycle (sample 0 (encI 9 0 1 5))) ∧
    (endOfCycle (sample 0 (encI 9 0 1 5))).ProgramCounter = 4 :=
  ⟨rfl, (zero_word_cycle idleSyscall (sample 0 (encI 9 0 1 5)) rfl).1, rfl⟩

/-! ## Delay slot -/

/-- C8 as stated fails when the delay-slot word is itself a jump: with
`J 100` at address 0 and `J 200` at address 4, no transfer pending at entry,
the run of budget 3 fetches at 0, 4 and then 8 — not at the target
100 * 4 = 400 of the first jump — and neither of the first two cycles ends
the run. -/
theorem delay_slot_jump_overrides_target :
    (sample (encJ 100) (encJ 200)).jumpState = 0 ∧
    getOpcode (readWord (sample (encJ 100) (encJ 200)) 0) = 2 ∧
    getAddress (readWord (sample (encJ 100) (encJ 200)) 0) = 100 ∧
    (run idleSyscall 3 (sample (encJ 100) (encJ 200))).1 = [0, 4, 8] ∧
    (∃ s', (run idleSyscall 3 (sample (encJ 100) (encJ 200))).2 = .ok s') ∧
    8 ≠ 100 * 4 % 4294967296 :=
  ⟨rfl, rfl, rfl, rfl, ⟨_, rfl⟩, by decide⟩

/-- C8 amended: from a state (with or without a transfer pending) whose fetched
word is a `J` with address field `a`, the cycle succeeds and leaves the program counter
at p + 4 (modulo 2^32) with registers and memory untouched; and if the cycle
that fetches and executes the word at p + 4 does not end the run, and that
word does not itself arm a transfer (it is not a `J`, a `JR`, or a `BEQ`
whose two registers are equal), then the next fetch address is
`a * 4 mod 2^32`, with no transfer pending any more. -/
theorem delay_slot_property (SyscallExe : Syscall) (s : Machine)
    (hJ : getOpcode (readWord s s.ProgramCounter) = 2) :
    ∃ s1, cycle SyscallExe s = .ok s1 ∧
      s1.ProgramCounter = (s.ProgramCounter + 4) % 4294967296 ∧
      s1.RegFile = s.RegFile ∧ s1.mem = s.mem ∧
      ∀ s2, ¬ arms s1 (readWord s1 s1.ProgramCounter) → cycle SyscallExe s1 = .ok s2 →
        s2.ProgramCounter = getAddress (readWord s s.ProgramCounter) * 4 % 4294967296 ∧
        s2.jumpState = 0 ∧
        (run SyscallExe 3 s).1 =
          [s.ProgramCounter, (s.ProgramCounter + 4) % 4294967296,
            getAddress (readWord s s.ProgramCounter) * 4 % 4294967296] := by
  have hw0 : readWord s s.ProgramCounter ≠ 0 := getOpcode_ne_zero (by omega)
  have hc : cycle SyscallExe s = .ok (endOfCycle
      { s with jumpAddress := shl32 (getAddress (readWord s s.ProgramCounter)) 2,
               jumpState := 2 }) := by
    unfold cycle
    dsimp only
    rw [if_neg hw0, execute_JUMP hJ]
    rfl
  refine ⟨_, hc, ?_, (endOfCycle_frame _).1, (endOfCycle_frame _).2.1, ?_⟩
  · rw [endOfCycle_PC]
    rfl
  · intro s2 harm h2
    have hs1js : (endOfCycle { s with
        jumpAddress := shl32 (getAddress (readWord s s.ProgramCounter)) 2,
        jumpState := 2 }).jumpState = 1 := by
      rw [endOfCycle_jumpState]; rfl
    have hs1ja : (endOfCycle { s with
        jumpAddress := shl32 (getAddress (readWord s s.ProgramCounter)) 2,
        jumpState := 2 }).jumpAddress
        = getAddress (readWord s s.ProgramCounter) * 4 % 4294967296 := by
      rw [(endOfCycle_frame _).2.2]
      simp only [shl32, Nat.shiftLeft_eq]
    have key : ∀ t : Machine, t.jumpState = 1 →
        t.jumpAddress = getAddress (readWord s s.ProgramCounter) * 4 % 4294967296 →
        (endOfCycle t).ProgramCounter
          = getAddress (readWord s s.ProgramCounter) * 4 % 4294967296 ∧
        (endOfCycle t).jumpState = 0 := by
      intro t h1 h2
      rw [endOfCycle_PC, endOfCycle_jumpState, h1, h2]
      exact ⟨rfl, rfl⟩
    have hfin : s2.ProgramCounter
          = getAddress (readWord s s.ProgramCounter) * 4 % 4294967296 ∧
        s2.jumpState = 0 := by
      rcases cycle_ok_cases h2 with ⟨_, rfl⟩ | ⟨_, t, ht, rfl⟩
      · exact key _ hs1js hs1ja
      · have hk := execute_keepsSched harm ht
        exact key t (hk.1.trans hs1js) (hk.2.trans hs1ja)
    refine ⟨hfin.1, hfin.2, ?_⟩
    have hpc1 : (endOfCycle { s with
        jumpAddress := shl32 (getAddress (readWord s s.ProgramCounter)) 2,
        jumpState := 2 }).ProgramCounter = (s.ProgramCounter + 4) % 4294967296 := by
      rw [endOfCycle_PC]; rfl
    rw [run, hc]
    dsimp only
    rw [run, h2]
    dsimp only
    have hlast : ∀ (u : Machine), (run SyscallExe 1 u).1 = [u.ProgramCounter] := by
      intro u
      rw [run]
      cases cycle SyscallExe u <;> rfl
    rw [hpc1, hlast, hfin.1]

/-- Instance of C8 amended: `J 100` at 0 with `ADDIU $1, $0, 5` in the delay
slot; the third fetch is at 400. -/
theorem delay_slot_property_witness :
    (sample (encJ 100) (encI 9 0 1 5)).jumpState = 0 ∧
    getOpcode (readWord (sample (encJ 100) (encI 9 0 1 5))
      (sample (encJ 100) (encI 9 0 1 5)).ProgramCounter) = 2 ∧
    (run idleSyscall 3 (sample (encJ 100) (encI 9 0 1 5))).1 = [0, 4, 400] ∧
    ∃ s1, cycle idleSyscall (sample (encJ 100) (encI 9 0 1 5)) = .ok s1 ∧
      s1.ProgramCounter = 4 ∧ ¬ arms s1 (readWord s1 s1.ProgramCounter) ∧
      ∃ s2, cycle idleSyscall s1 = .ok s2 ∧ s2.ProgramCounter = 400 := by
  obtain ⟨s1, h1, hpc, hrf, hmem, hnext⟩ :=
    delay_slot_property idleSyscall (sample (encJ 100) (encI 9 0 1 5)) rfl
  have hs1 : s1 = ⟨zeroRegFile, twoWords (encJ 100) (encI 9 0 1 5), 4, 400, 1⟩ := by
    have h1c : cycle idleSyscall (sample (encJ 100) (encI 9 0 1 5)) =
        .ok ⟨zeroRegFile, twoWords (encJ 100) (encI 9 0 1 5), 4, 400, 1⟩ := rfl
    rw [h1c] at h1
    cases h1
    rfl
  subst hs1
  have harm : ¬ arms (⟨zeroRegFile, twoWords (encJ 100) (encI 9 0 1 5), 4, 400, 1⟩ : Machine)
      (readWord ⟨zeroRegFile, twoWords (encJ 100) (encI 9 0 1 5), 4, 400, 1⟩ 4) := by
    decide
  have h2c : cycle idleSyscall ⟨zeroRegFile, twoWords (encJ 100) (encI 9 0 1 5), 4, 400, 1⟩ =
      .ok ⟨zeroRegFile.set 1 5, twoWords (encJ 100) (encI 9 0 1 5), 400, 400, 0⟩ := rfl
  exact ⟨rfl, rfl, rfl, _, h1, rfl, harm, _, h2c, (hnext _ harm h2c).1⟩

/-! ## Scheduler refinement -/

/-- C9: reading `jumpState` 2, 1, 0 as `ARMED(jumpAddress)`, `DUE(jumpAddress)`,
`NONE`, the end-of-cycle code is the transition rule of the specification:
the scheduler state and the program counter after it are those the rule
gives (`ARMED(t)` to `DUE(t)` with PC + 4, `DUE(t)` to `NONE` with PC = t,
`NONE` to `NONE` with PC + 4, modulo 2^32). The loop starts in `NONE`, and
the dispatch switch, a whole cycle and a whole run keep `jumpState` within
{0, 1, 2}, so every state reached reads as one of the three. -/
theorem endOfCycle_refines_scheduler :
    (∀ (s : Machine) (σ : SpecSched), schedOf s = some σ →
      schedOf (endOfCycle s) = some (σ.transition s.ProgramCounter).1 ∧
      (endOfCycle s).ProgramCounter = (σ.transition s.ProgramCounter).2) ∧
    (∀ (RegFile : List Int) (mem : Nat → Nat) (entry : Nat),
      schedOf (boot RegFile mem entry) = some .NONE) ∧
    (∀ (SyscallExe : Syscall) (s s' : Machine) (w : Nat), (schedOf s).isSome →
      execute SyscallExe s w = .ok s' → (schedOf s').isSome) ∧
    (∀ (SyscallExe : Syscall) (s s' : Machine), (schedOf s).isSome →
      cycle SyscallExe s = .ok s' → (schedOf s').isSome) ∧
    (∀ (SyscallExe : Syscall) (n : Nat) (s s' : Machine), (schedOf s).isSome →
      (run SyscallExe n s).2 = .ok s' → (schedOf s').isSome) := by
  have hsome : ∀ s : Machine, (schedOf s).isSome ↔
      (s.jumpState = 0 ∨ s.jumpState = 1 ∨ s.jumpState = 2) := by
    intro s
    unfold schedOf
    split_ifs <;> simp <;> omega
  have hend : ∀ s : Machine, (schedOf s).isSome → (schedOf (endOfCycle s)).isSome := by
    intro s hs
    rw [hsome] at hs ⊢
    rw [endOfCycle_jumpState]
    split_ifs <;> omega
  have hexec : ∀ (SyscallExe : Syscall) (s s' : Machine) (w : Nat), (schedOf s).isSome →
      execute SyscallExe s w = .ok s' → (schedOf s').isSome := by
    intro SyscallExe s s' w hs h
    rw [hsome] at hs ⊢
    rcases (execute_sched h).2 with hk | h2
    · rw [hk.1]; exact hs
    · right; right; exact h2
  have hcycle : ∀ (SyscallExe : Syscall) (s s' : Machine), (schedOf s).isSome →
      cycle SyscallExe s = .ok s' → (schedOf s').isSome := by
    intro SyscallExe s s' hs h
    rcases cycle_ok_cases h with ⟨_, rfl⟩ | ⟨_, t, ht, rfl⟩
    · exact hend s hs
    · exact hend t (hexec SyscallExe s t _ hs ht)
  refine ⟨?_, fun _ _ _ => rfl, hexec, hcycle, ?_⟩
  · intro s σ hσ
    unfold schedOf at hσ
    split_ifs at hσ with h2 h1 h0
    · cases hσ
      refine ⟨?_, ?_⟩
      · unfold schedOf
        rw [endOfCycle_jumpState, (endOfCycle_frame s).2.2, if_pos h2]
        rfl
      · rw [endOfCycle_PC, if_neg (by omega)]
        rfl
    · cases hσ
      refine ⟨?_, ?_⟩
      · unfold schedOf
        rw [endOfCycle_jumpState, if_neg h2, if_pos h1]
        rfl
      · rw [endOfCycle_PC, if_pos h1]
        rfl
    · cases hσ
      refine ⟨?_, ?_⟩
      · unfold schedOf
        rw [endOfCycle_jumpState, if_neg h2, if_neg h1, if_neg h2, if_neg h1, if_pos h0]
        rfl
      · rw [endOfCycle_PC, if_neg h1]
        rfl
  · intro SyscallExe n
    induction n with
    | zero =>
      intro s s' hs h
      rw [run] at h
      cases h
      exact hs
    | succ k ih =>
      intro s s' hs h
      rw [run] at h
      cases hc : cycle SyscallExe s with
      | error e => rw [hc] at h; cases h
      | ok t =>
        rw [hc] at h
        exact ih t s' (hcycle SyscallExe s t hs hc) h

/-- Instance of C9: a due transfer to 400 is delivered and the state returns
to `NONE`. -/
theorem endOfCycle_refines_scheduler_witness :
    schedOf ⟨zeroRegFile, fun _ => 0, 4, 400, 1⟩ = some (.DUE 400) ∧
    schedOf (endOfCycle ⟨zeroRegFile, fun _ => 0, 4, 400, 1⟩) = some .NONE ∧
    (endOfCycle ⟨zeroRegFile, fun _ => 0, 4, 400, 1⟩).ProgramCounter = 400 :=
  ⟨rfl, endOfCycle_refines_scheduler.1 ⟨zeroRegFile, fun _ => 0, 4, 400, 1⟩ (.DUE 400) rfl⟩

/-! ## ADDI and ADDIU -/

/-- C10: over a register file of 34 `int32_t` entries, for every word with
opcode `ADDI` or `ADDIU`, with `v` the value of register `rs` and `m` the
decoded immediate: `ADDI` returns the overflow fault exactly when `v + m` is
outside the `int32_t` range (and the run that fetched the word stops there
with that fault, no state being produced), and otherwise performs the register
write `setRegValue(rt, v + m)` and changes nothing else, so that register
`rt` then reads `v + m` (unless `rt` is the zero register, whose write is
discarded) and every other register is as before; `ADDIU` never faults and
performs `setRegValue(rt, wrap32 (v + m))` in the same way. With register 1
holding `INT_MAX`, `ADDI $2, $1, 1` ends with the overflow fault and
`ADDIU $2, $1, 1` stores `INT_MIN` in register 2. -/
theorem addi_addiu_overflow (SyscallExe : Syscall) (s : Machine) (w : Nat)
    (hrf : RegFileOK s.RegFile) :
    (∃ v, getRegValue s.RegFile (getRS w) = .ok v ∧ inInt32 v ∧
      (getOpcode w = 8 →
        (execute SyscallExe s w = .error .overflow ↔ ¬ inInt32 (v + getImmediate w)) ∧
        (¬ inInt32 (v + getImmediate w) → readWord s s.ProgramCounter = w →
          ∀ n, run SyscallExe (n + 1) s = ([s.ProgramCounter], .error .overflow)) ∧
        (inInt32 (v + getImmediate w) →
          ∃ rf, setRegValue s.RegFile (getRT w) (v + getImmediate w) = .ok rf ∧
            execute SyscallExe s w = .ok { s with RegFile := rf } ∧
            (getRT w ≠ 0 → getRegValue rf (getRT w) = .ok (v + getImmediate w)) ∧
            ∀ k, k ≠ getRT w → rf[k]? = s.RegFile[k]?)) ∧
      (getOpcode w = 9 →
        ∃ rf, setRegValue s.RegFile (getRT w) (wrap32 (v + getImmediate w)) = .ok rf ∧
          execute SyscallExe s w = .ok { s with RegFile := rf } ∧
          (getRT w ≠ 0 → getRegValue rf (getRT w) = .ok (wrap32 (v + getImmediate w))) ∧
          ∀ k, k ≠ getRT w → rf[k]? = s.RegFile[k]?)) ∧
    execute SyscallExe sampleMax (encI 8 1 2 1) = .error .overflow ∧
    execute SyscallExe sampleMax (encI 9 1 2 1) =
      .ok { sampleMax with RegFile := maxRegFile.set 2 INT_MIN } := by
  refine ⟨?_, rfl, rfl⟩
  obtain ⟨hlen, hval⟩ := hrf
  unfold RegFileEntries at hlen
  have hrs : getRS w < s.RegFile.length := by have := getRS_lt w; omega
  have hrt : getRT w < s.RegFile.length := by have := getRT_lt w; omega
  have hv : inInt32 (s.RegFile.get ⟨getRS w, hrs⟩) := hval _ (List.get_mem _ _ _)
  have hm : inInt32 (getImmediate w) := by
    rw [getImmediate_eq_low16]
    simp only [inInt32, INT_MIN, INT_MAX]
    omega
  have hset : ∀ x : Int, ∃ rf, setRegValue s.RegFile (getRT w) x = .ok rf := by
    intro x
    by_cases h0 : getRT w = 0
    · exact ⟨s.RegFile, by unfold setRegValue; rw [if_pos h0]⟩
    · exact ⟨_, setRegValue_of_lt x h0 hrt⟩
  refine ⟨_, getRegValue_of_lt hrs, hv, ?_, ?_⟩
  · intro h8
    have hrunFault : execute SyscallExe s w = .error .overflow →
        readWord s s.ProgramCounter = w →
        ∀ n, run SyscallExe (n + 1) s = ([s.ProgramCounter], .error .overflow) := by
      intro hex hw n
      have hc : cycle SyscallExe s = .error .overflow := by
        unfold cycle
        dsimp only
        rw [hw, if_neg (getOpcode_ne_zero (by omega)), hex]
        rfl
      rw [run, hc]
    rw [execute_ADDI h8] at hrunFault ⊢
    by_cases hov : inInt32 (s.RegFile.get ⟨getRS w, hrs⟩ + getImmediate w)
    · have hno : additionWillOverflow (s.RegFile.get ⟨getRS w, hrs⟩) (getImmediate w) = false := by
        rw [Bool.eq_false_iff, Ne, additionWillOverflow_iff hv hm]
        exact not_not.mpr hov
      obtain ⟨rf, hrfset⟩ := hset (s.RegFile.get ⟨getRS w, hrs⟩ + getImmediate w)
      have hrun : caseADDI s (getRS w) (getRT w) (getImmediate w)
          = .ok { s with RegFile := rf } := by
        simp only [caseADDI, getRegValue_of_lt hrs, bind, Except.bind, hno,
          wrap32_of_inInt32 hov, hrfset]
        rfl
      refine ⟨?_, fun h => absurd hov h,
        fun _ => ⟨rf, hrfset, hrun, (setRegValue_ok_spec hrfset).1, (setRegValue_ok_spec hrfset).2⟩⟩
      rw [hrun]
      constructor
      · intro h; cases h
      · intro h; exact absurd hov h
    · have hyes : additionWillOverflow (s.RegFile.get ⟨getRS w, hrs⟩) (getImmediate w) = true :=
        (additionWillOverflow_iff hv hm).mpr hov
      have hrun : caseADDI s (getRS w) (getRT w) (getImmediate w) = .error .overflow := by
        simp only [caseADDI, getRegValue_of_lt hrs, bind, Except.bind, hyes]
        rfl
      exact ⟨⟨fun _ => hov, fun _ => hrun⟩, fun _ => hrunFault hrun, fun h => absurd h hov⟩
  · intro h9
    rw [execute_ADDIU h9]
    obtain ⟨rf, hrfset⟩ := hset (wrap32 (s.RegFile.get ⟨getRS w, hrs⟩ + getImmediate w))
    refine ⟨rf, hrfset, ?_, (setRegValue_ok_spec hrfset).1, (setRegValue_ok_spec hrfset).2⟩
    simp only [caseADDIU, getRegValue_of_lt hrs, bind, Except.bind, hrfset]

/-- Instance of C10: `ADDI $2, $1, 1` with register 1 holding `INT_MAX`. -/
theorem addi_addiu_overflow_witness :
    RegFileOK sampleMax.RegFile ∧ getOpcode (encI 8 1 2 1) = 8 ∧
    ∃ v, getRegValue sampleMax.RegFile (getRS (encI 8 1 2 1)) = .ok v ∧ inInt32 v ∧
      (execute idleSyscall sampleMax (encI 8 1 2 1) = .error .overflow ↔
        ¬ inInt32 (v + getImmediate (encI 8 1 2 1))) := by
  have hok : RegFileOK sampleMax.RegFile := by
    refine ⟨rfl, ?_⟩
    decide
  obtain ⟨v, hv, hin, h8, _⟩ := (addi_addiu_overflow idleSyscall sampleMax (encI 8 1 2 1) hok).1
  exact ⟨hok, rfl, v, hv, hin, (h8 rfl).1⟩

/-! ## SUB, the R-type destination, LW -/

/-- The overflow test of `case FUNCT_SUB` on `int32_t` operands: it agrees
with the exact difference leaving the range unless the subtrahend is
`INT_MIN`, where the negation wraps and the test is true exactly for a
negative minuend. -/
theorem sub_overflow_test (left right : Int) (hl : inInt32 left) (hr : inInt32 right) :
    (right ≠ INT_MIN →
      (additionWillOverflow left (wrap32 (-right)) = true ↔ ¬ inInt32 (left - right))) ∧
    (right = INT_MIN →
      (additionWillOverflow left (wrap32 (-right)) = true ↔ left < 0) ∧
      (¬ inInt32 (left - right) ↔ 0 ≤ left)) := by
  simp only [additionWillOverflow, wrap32, inInt32, INT_MAX, INT_MIN] at *
  simp only [Bool.or_eq_true, Bool.and_eq_true, decide_eq_true_eq]
  omega

/-- C11: evaluation of `SUB` (rs = 1, rt = 2) with register 2 holding 5 and
register 1 holding `INT_MIN`: the handler computes `left - right` with
`left = 5`, `right = INT_MIN`, whose exact value 2147483653 is outside the
`int32_t` range, yet no overflow is signalled and the wrapped value
-2147483643 is stored. With `left = -1` the exact difference `INT_MAX` is in
range and the test is true all the same. -/
theorem sub_misses_overflow_at_int_min :
    getRegValue regFileMin 2 = .ok 5 ∧ getRegValue regFileMin 1 = .ok INT_MIN ∧
    ¬ inInt32 (5 - INT_MIN) ∧
    additionWillOverflow 5 (wrap32 (-INT_MIN)) = false ∧
    execute idleSyscall (midRun regFileMin (fun _ => 0)) (encR 1 2 3 0 34) =
      .ok { midRun regFileMin (fun _ => 0) with RegFile := regFileMin.set 1 (-2147483643) } ∧
    inInt32 (-1 - INT_MIN) ∧ additionWillOverflow (-1) (wrap32 (-INT_MIN)) = true := by
  refine ⟨rfl, rfl, by decide, by decide, rfl, by decide, by decide⟩

/-- C12: evaluation of `ADD $3, $1, $2` and `SUB $3, $1, $2` (rs = 1, rt = 2,
rd = 3) with register 1 holding 5 and register 2 holding 7: `ADD` stores the
sum 12 in register 1, the `rs` register, and register 3 stays 0; `SUB` stores
`reg[rt] - reg[rs]` = 2 in register 1, where the claim has
`reg[rs] - reg[rt]` = -2 in register 3. -/
theorem rtype_result_written_to_rs :
    getRS (encR 1 2 3 0 32) = 1 ∧ getRT (encR 1 2 3 0 32) = 2 ∧ getRD (encR 1 2 3 0 32) = 3 ∧
    getFunct (encR 1 2 3 0 32) = 32 ∧ getFunct (encR 1 2 3 0 34) = 34 ∧
    execute idleSyscall (midRun regFile57 (fun _ => 0)) (encR 1 2 3 0 32) =
      .ok { midRun regFile57 (fun _ => 0) with RegFile := regFile57.set 1 12 } ∧
    getRegValue (regFile57.set 1 12) 3 = .ok 0 ∧
    getRegValue (regFile57.set 1 12) 1 ≠ getRegValue regFile57 1 ∧
    execute idleSyscall (midRun regFile57 (fun _ => 0)) (encR 1 2 3 0 34) =
      .ok { midRun regFile57 (fun _ => 0) with RegFile := regFile57.set 1 2 } ∧
    getRegValue (regFile57.set 1 2) 3 = .ok 0 := by
  refine ⟨rfl, rfl, rfl, rfl, rfl, rfl, rfl, ?_, rfl, rfl⟩
  intro h
  cases h

/-- C13: evaluation of `LW $2, 8($1)` (rs = 1, rt = 2, immediate 8) with
register 1 holding 100, the word 42 at address 108 and the word 99 at
address 10: the handler reads at `rt + immediate` = 2 + 8 = 10, the register
number plus the immediate, and stores the word 99 in register 1, the `rs`
register; register 2 stays 0. -/
theorem lw_address_and_destination :
    getOpcode (encI 35 1 2 8) = 35 ∧ getRS (encI 35 1 2 8) = 1 ∧ getRT (encI 35 1 2 8) = 2 ∧
    getImmediate (encI 35 1 2 8) = 8 ∧
    getRegValue regFile100 1 = .ok 100 ∧ readWord (midRun regFile100 memLW) 108 = 42 ∧
    execute idleSyscall (midRun regFile100 memLW) (encI 35 1 2 8) =
      .ok { midRun regFile100 memLW with RegFile := regFile100.set 1 99 } ∧
    getRegValue (regFile100.set 1 99) 2 = .ok 0 ∧
    getRegValue (regFile100.set 1 99) 1 = .ok 99 := by
  refine ⟨rfl, rfl, rfl, rfl, rfl, rfl, rfl, rfl, rfl⟩

/-! ## Shared lemmas: where faults come from -/

theorem getRegValue_error {RegFile : List Int} {n : Nat} {e : Fault}
    (h : getRegValue RegFile n = .error e) : IndexFaultAt RegFile e n := by
  unfold getRegValue at h
  split_ifs at h with hgt
  · cases h
    exact ⟨Or.inl rfl, by omega⟩
  · split at h
    · cases h
    · rename_i hnone
      cases h
      exact ⟨Or.inr rfl, by rw [List.getElem?_eq_none_iff] at hnone; exact hnone⟩

theorem setRegValue_error {RegFile : List Int} {n : Nat} {v : Int} {e : Fault}
    (h : setRegValue RegFile n v = .error e) : IndexFaultAt RegFile e n := by
  unfold setRegValue at h
  split_ifs at h with h0 hgt hlt
  · cases h
    exact ⟨Or.inl rfl, by omega⟩
  · cases h
    exact ⟨Or.inr rfl, by omega⟩

theorem caseJR_fault {s : Machine} {rs : Nat} {e : Fault}
    (h : caseJR s rs = .error e) :
    e = .overflow ∨ ∃ n, n ∈ [rs] ∧ IndexFaultAt s.RegFile e n := by
  simp only [caseJR, bind, Except.bind] at h
  repeat' split at h
  all_goals first
    | (exfalso; simp at h; done)
    | (cases h; refine Or.inr ⟨_, ?_, getRegValue_error (by assumption)⟩; simp)

theorem caseADD_fault {s : Machine} {rs rt : Nat} {e : Fault}
    (h : caseADD s rs rt = .error e) :
    e = .overflow ∨ ∃ n, n ∈ [rt, rs] ∧ IndexFaultAt s.RegFile e n := by
  simp only [caseADD, bind, Except.bind] at h
  repeat' split at h
  all_goals first
    | (exfalso; simp at h; done)
    | (cases h; exact Or.inl rfl)
    | (cases h; refine Or.inr ⟨_, ?_, getRegValue_error (by assumption)⟩; simp)
    | (cases h; refine Or.inr ⟨_, ?_, setRegValue_error (by assumption)⟩; simp)

theorem caseADDU_fault {s : Machine} {rs rt : Nat} {e : Fault}
    (h : caseADDU s rs rt = .error e) :
    e = .overflow ∨ ∃ n, n ∈ [rt, rs] ∧ IndexFaultAt s.RegFile e n := by
  simp only [caseADDU, bind, Except.bind] at h
  repeat' split at h
  all_goals first
    | (exfalso; simp at h; done)
    | (cases h; refine Or.inr ⟨_, ?_, getRegValue_error (by assumption)⟩; simp)
    | (cases h; refine Or.inr ⟨_, ?_, setRegValue_error (by assumption)⟩; simp)

theorem caseSUB_fault {s : Machine} {rs rt : Nat} {e : Fault}
    (h : caseSUB s rs rt = .error e) :
    e = .overflow ∨ ∃ n, n ∈ [rt, rs] ∧ IndexFaultAt s.RegFile e n := by
  simp only [caseSUB, bind, Except.bind] at h
  repeat' split at h
  all_goals first
    | (exfalso; simp at h; done)
    | (cases h; exact Or.inl rfl)
    | (cases h; refine Or.inr ⟨_, ?_, getRegValue_error (by assumption)⟩; simp)
    | (cases h; refine Or.inr ⟨_, ?_, setRegValue_error (by assumption)⟩; simp)

theorem caseSUBU_fault {s : Machine} {rs rt : Nat} {e : Fault}
    (h : caseSUBU s rs rt = .error e) :
    e = .overflow ∨ ∃ n, n ∈ [rt, rs] ∧ IndexFaultAt s.RegFile e n := by
  simp only [caseSUBU, bind, Except.bind] at h
  repeat' split at h
  all_goals first
    | (exfalso; simp at h; done)
    | (cases h; refine Or.inr ⟨_, ?_, getRegValue_error (by assumption)⟩; simp)
    | (cases h; refine Or.inr ⟨_, ?_, setRegValue_error (by assumption)⟩; simp)

theorem caseSLL_fault {s : Machine} {rt rd shamt : Nat} {e : Fault}
    (h : caseSLL s rt rd shamt = .error e) :
    e = .overflow ∨ ∃ n, n ∈ [rt, rd] ∧ IndexFaultAt s.RegFile e n := by
  simp only [caseSLL, bind, Except.bind] at h
  repeat' split at h
  all_goals first
    | (exfalso; simp at h; done)
    | (cases h; refine Or.inr ⟨_, ?_, getRegValue_error (by assumption)⟩; simp)
    | (cases h; refine Or.inr ⟨_, ?_, setRegValue_error (by assumption)⟩; simp)

theorem caseMFHI_fault {s : Machine} {rd : Nat} {e : Fault}
    (h : caseMFHI s rd = .error e) :
    e = .overflow ∨ ∃ n, n ∈ [32, rd] ∧ IndexFaultAt s.RegFile e n := by
  simp only [caseMFHI, bind, Except.bind] at h
  repeat' split at h
  all_goals first
    | (exfalso; simp at h; done)
    | (cases h; refine Or.inr ⟨_, ?_, getRegValue_error (by assumption)⟩; simp)
    | (cases h; refine Or.inr ⟨_, ?_, setRegValue_error (by assumption)⟩; simp)

theorem caseMTHI_fault {s : Machine} {rs : Nat} {e : Fault}
    (h : caseMTHI s rs = .error e) :
    e = .overflow ∨ ∃ n, n ∈ [rs, 32] ∧ IndexFaultAt s.RegFile e n := by
  simp only [caseMTHI, bind, Except.bind] at h
  repeat' split at h
  all_goals first
    | (exfalso; simp at h; done)
    | (cases h; refine Or.inr ⟨_, ?_, getRegValue_error (by assumption)⟩; simp)
    | (cases h; refine Or.inr ⟨_, ?_, setRegValue_error (by assumption)⟩; simp)

theorem caseMFLO_fault {s : Machine} {rd : Nat} {e : Fault}
    (h : caseMFLO s rd = .error e) :
    e = .overflow ∨ ∃ n, n ∈ [33, rd] ∧ IndexFaultAt s.RegFile e n := by
  simp only [caseMFLO, bind, Except.bind] at h
  repeat' split at h
  all_goals first
    | (exfalso; simp at h; done)
    | (cases h; refine Or.inr ⟨_, ?_, getRegValue_error (by assumption)⟩; simp)
    | (cases h; refine Or.inr ⟨_, ?_, setRegValue_error (by assumption)⟩; simp)

theorem caseMTLO_fault {s : Machine} {rs : Nat} {e : Fault}
    (h : caseMTLO s rs = .error e) :
    e = .overflow ∨ ∃ n, n ∈ [rs, 33] ∧ IndexFaultAt s.RegFile e n := by
  simp only [caseMTLO, bind, Except.bind] at h
  repeat' split at h
  all_goals first
    | (exfalso; simp at h; done)
    | (cases h; refine Or.inr ⟨_, ?_, getRegValue_error (by assumption)⟩; simp)
    | (cases h; refine Or.inr ⟨_, ?_, setRegValue_error (by assumption)⟩; simp)

theorem caseADDI_fault {s : Machine} {rs rt : Nat} {imm : Int} {e : Fault}
    (h : caseADDI s rs rt imm = .error e) :
    e = .overflow ∨ ∃ n, n ∈ [rs, rt] ∧ IndexFaultAt s.RegFile e n := by
  simp only [caseADDI, bind, Except.bind] at h
  repeat' split at h
  all_goals first
    | (exfalso; simp at h; done)
    | (cases h; exact Or.inl rfl)
    | (cases h; refine Or.inr ⟨_, ?_, getRegValue_error (by assumption)⟩; simp)
    | (cases h; refine Or.inr ⟨_, ?_, setRegValue_error (by assumption)⟩; simp)

theorem caseADDIU_fault {s : Machine} {rs rt : Nat} {imm : Int} {e : Fault}
    (h : caseADDIU s rs rt imm = .error e) :
    e = .overflow ∨ ∃ n, n ∈ [rs, rt] ∧ IndexFaultAt s.RegFile e n := by
  simp only [caseADDIU, bind, Except.bind] at h
  repeat' split at h
  all_goals first
    | (exfalso; simp at h; done)
    | (cases h; refine Or.inr ⟨_, ?_, getRegValue_error (by assumption)⟩; simp)
    | (cases h; refine Or.inr ⟨_, ?_, setRegValue_error (by assumption)⟩; simp)

theorem caseANDI_fault {s : Machine} {rs rt : Nat} {imm : Int} {e : Fault}
    (h : caseANDI s rs rt imm = .error e) :
    e = .overflow ∨ ∃ n, n ∈ [rs, rt] ∧ IndexFaultAt s.RegFile e n := by
  simp only [caseANDI, bind, Except.bind] at h
  repeat' split at h
  all_goals first
    | (exfalso; simp at h; done)
    | (cases h; refine Or.inr ⟨_, ?_, getRegValue_error (by assumption)⟩; simp)
    | (cases h; refine Or.inr ⟨_, ?_, setRegValue_error (by assumption)⟩; simp)

theorem caseORI_fault {s : Machine} {rs rt : Nat} {imm : Int} {e : Fault}
    (h : caseORI s rs rt imm = .error e) :
    e = .overflow ∨ ∃ n, n ∈ [rs, rt] ∧ IndexFaultAt s.RegFile e n := by
  simp only [caseORI, bind, Except.bind] at h
  repeat' split at h
  all_goals first
    | (exfalso; simp at h; done)
    | (cases h; refine Or.inr ⟨_, ?_, getRegValue_error (by assumption)⟩; simp)
    | (cases h; refine Or.inr ⟨_, ?_, setRegValue_error (by assumption)⟩; simp)

theorem caseXORI_fault {s : Machine} {rs rt : Nat} {imm : Int} {e : Fault}
    (h : caseXORI s rs rt imm = .error e) :
    e = .overflow ∨ ∃ n, n ∈ [rs, rt] ∧ IndexFaultAt s.RegFile e n := by
  simp only [caseXORI, bind, Except.bind] at h
  repeat' split at h
  all_goals first
    | (exfalso; simp at h; done)
    | (cases h; refine Or.inr ⟨_, ?_, getRegValue_error (by assumption)⟩; simp)
    | (cases h; refine Or.inr ⟨_, ?_, setRegValue_error (by assumption)⟩; simp)

theorem caseLUI_fault {s : Machine} {rs rt : Nat} {imm : Int} {e : Fault}
    (h : caseLUI s rs rt imm = .error e) :
    e = .overflow ∨ ∃ n, n ∈ [rs, rt] ∧ IndexFaultAt s.RegFile e n := by
  simp only [caseLUI, bind, Except.bind] at h
  repeat' split at h
  all_goals first
    | (exfalso; simp at h; done)
    | (cases h; refine Or.inr ⟨_, ?_, getRegValue_error (by assumption)⟩; simp)
    | (cases h; refine Or.inr ⟨_, ?_, setRegValue_error (by assumption)⟩; simp)

theorem caseLW_fault {s : Machine} {rs rt : Nat} {imm : Int} {e : Fault}
    (h : caseLW s rs rt imm = .error e) :
    e = .overflow ∨ ∃ n, n ∈ [rs] ∧ IndexFaultAt s.RegFile e n := by
  simp only [caseLW, bind, Except.bind] at h
  repeat' split at h
  all_goals first
    | (exfalso; simp at h; done)
    | (cases h; refine Or.inr ⟨_, ?_, setRegValue_error (by assumption)⟩; simp)

theorem caseBEQ_fault {s : Machine} {rs rt : Nat} {imm : Int} {address : Nat} {e : Fault}
    (h : caseBEQ s rs rt imm address = .error e) :
    e = .overflow ∨ ∃ n, n ∈ [rs, rt, 31] ∧ IndexFaultAt s.RegFile e n := by
  simp only [caseBEQ, bind, Except.bind] at h
  split at h
  · cases h
    refine Or.inr ⟨_, ?_, getRegValue_error (by assumption)⟩
    simp
  · split at h
    · cases h
      refine Or.inr ⟨_, ?_, getRegValue_error (by assumption)⟩
      simp
    · split at h
      · split at h
        · cases h
          refine Or.inr ⟨_, ?_, setRegValue_error (by assumption)⟩
          simp
        · cases h
      · rcases caseADDI_fault h with ho | ⟨n, hn, hf⟩
        · exact Or.inl ho
        · refine Or.inr ⟨n, ?_, hf⟩
          simp only [List.mem_cons, List.mem_singleton, List.not_mem_nil, or_false] at hn ⊢
          omega

theorem caseSYSCALL_fault {SyscallExe : Syscall} {s : Machine} {code : Nat} {e : Fault}
    (h : caseSYSCALL SyscallExe s code = .error e) : e = .syscallExit := by
  unfold caseSYSCALL at h
  split at h
  · cases h
  · cases h; rfl


/-! ## Shared lemmas: classification of faults -/

theorem faultClass_of_handler {s : Machine} {w : Nat} {e : Fault} {indices : List Nat}
    (h : e = .overflow ∨ ∃ n, n ∈ indices ∧ IndexFaultAt s.RegFile e n)
    (hle : ∀ n ∈ indices, n ≤ 33) : FaultClass s w e := by
  rcases h with ho | ⟨n, hn, hf⟩
  · exact Or.inl ho
  · exact Or.inr (Or.inr (Or.inl ⟨n, hle n hn, hf⟩))

theorem decoded_indices_le (w : Nat) (indices : List Nat)
    (h : ∀ n ∈ indices, n = getRS w ∨ n = getRT w ∨ n = getRD w ∨ n = 31 ∨ n = 32 ∨ n = 33) :
    ∀ n ∈ indices, n ≤ 33 := by
  intro n hn
  have h1 := getRS_lt w
  have h2 := getRT_lt w
  have h3 := getRD_lt w
  rcases h n hn with h | h | h | h | h | h <;> omega

/-- Every fault of the dispatch switch has one of the causes of `FaultClass`. -/
theorem execute_fault {SyscallExe : Syscall} {s : Machine} {w : Nat} {e : Fault}
    (h : execute SyscallExe s w = .error e) : FaultClass s w e := by
  revert h
  apply execute_cases (P := fun r => r = .error e → FaultClass s w e)
  case hSYSCALL => exact fun _ _ h => Or.inr (Or.inl (caseSYSCALL_fault h))
  case hFunct =>
    intro c0 hf h
    cases h
    exact Or.inr (Or.inr (Or.inr (Or.inl ⟨rfl, c0, hf⟩)))
  case hOpcode =>
    intro hf h
    cases h
    exact Or.inr (Or.inr (Or.inr (Or.inr ⟨rfl, hf⟩)))
  case hSLTIU => exact fun _ h => by cases h
  case hJUMP => exact fun _ h => by unfold caseJUMP at h; cases h
  case hJR =>
    exact fun _ _ h => faultClass_of_handler (caseJR_fault h)
      (decoded_indices_le w _ (by simp))
  case hADD =>
    exact fun _ _ h => faultClass_of_handler (caseADD_fault h)
      (decoded_indices_le w _ (by simp))
  case hADDU =>
    exact fun _ _ h => faultClass_of_handler (caseADDU_fault h)
      (decoded_indices_le w _ (by simp))
  case hSUB =>
    exact fun _ _ h => faultClass_of_handler (caseSUB_fault h)
      (decoded_indices_le w _ (by simp))
  case hSUBU =>
    exact fun _ _ h => faultClass_of_handler (caseSUBU_fault h)
      (decoded_indices_le w _ (by simp))
  case hSLL =>
    exact fun _ _ h => faultClass_of_handler (caseSLL_fault h)
      (decoded_indices_le w _ (by simp))
  case hMFHI =>
    exact fun _ _ h => faultClass_of_handler (caseMFHI_fault h)
      (decoded_indices_le w _ (by simp))
  case hMTHI =>
    exact fun _ _ h => faultClass_of_handler (caseMTHI_fault h)
      (decoded_indices_le w _ (by simp))
  case hMFLO =>
    exact fun _ _ h => faultClass_of_handler (caseMFLO_fault h)
      (decoded_indices_le w _ (by simp))
  case hMTLO =>
    exact fun _ _ h => faultClass_of_handler (caseMTLO_fault h)
      (decoded_indices_le w _ (by simp))
  case hBEQ =>
    exact fun _ h => faultClass_of_handler (caseBEQ_fault h)
      (decoded_indices_le w _ (by simp))
  case hADDI =>
    exact fun _ h => faultClass_of_handler (caseADDI_fault h)
      (decoded_indices_le w _ (by simp))
  case hADDIU =>
    exact fun _ h => faultClass_of_handler (caseADDIU_fault h)
      (decoded_indices_le w _ (by simp))
  case hANDI =>
    exact fun _ h => faultClass_of_handler (caseANDI_fault h)
      (decoded_indices_le w _ (by simp))
  case hORI =>
    exact fun _ h => faultClass_of_handler (caseORI_fault h)
      (decoded_indices_le w _ (by simp))
  case hXORI =>
    exact fun _ h => faultClass_of_handler (caseXORI_fault h)
      (decoded_indices_le w _ (by simp))
  case hLUI =>
    exact fun _ h => faultClass_of_handler (caseLUI_fault h)
      (decoded_indices_le w _ (by simp))
  case hLW =>
    exact fun _ h => faultClass_of_handler (caseLW_fault h)
      (decoded_indices_le w _ (by simp))

theorem execute_unknownOpcode {SyscallExe : Syscall} {s : Machine} {w : Nat}
    (h : getOpcode w ∉ handledOpcodes) :
    execute SyscallExe s w = .error (.unknownOpcode (getOpcode w)) ∧
    executeTraced SyscallExe s w = (s, some (.unknownOpcode (getOpcode w))) := by
  simp only [handledOpcodes, List.mem_cons, List.mem_singleton, List.not_mem_nil, or_false,
    not_or] at h
  obtain ⟨h0, h2, h4, h8, h9, h11, h12, h13, h14, h15, h35⟩ := h
  constructor
  · unfold execute
    dsimp only
    rw [if_neg h0, if_neg h2, if_neg h4, if_neg h8, if_neg h9, if_neg h11, if_neg h12,
      if_neg h13, if_neg h14, if_neg h15, if_neg h35]
  · unfold executeTraced
    dsimp only
    rw [if_neg h0, if_neg h2, if_neg h4, if_neg h8, if_neg h9, if_neg h11, if_neg h12,
      if_neg h13, if_neg h14, if_neg h15, if_neg h35]

theorem execute_unknownFunct {SyscallExe : Syscall} {s : Machine} {w : Nat}
    (hop : getOpcode w = 0) (h : getFunct w ∉ handledFuncts) :
    execute SyscallExe s w = .error (.unknownFunct (getFunct w)) ∧
    executeTraced SyscallExe s w = (s, some (.unknownFunct (getFunct w))) := by
  simp only [handledFuncts, List.mem_cons, List.mem_singleton, List.not_mem_nil, or_false,
    not_or] at h
  obtain ⟨h8, h12, h32, h33, h34, h35, h0, h16, h17, h18, h19⟩ := h
  constructor
  · unfold execute dispatchFunct
    dsimp only
    rw [if_pos hop, if_neg h8, if_neg h12, if_neg h32, if_neg h33, if_neg h34, if_neg h35,
      if_neg h0, if_neg h16, if_neg h17, if_neg h18, if_neg h19]
  · unfold executeTraced dispatchFunctTraced
    dsimp only
    rw [if_pos hop, if_neg h8, if_neg h12, if_neg h32, if_neg h33, if_neg h34, if_neg h35,
      if_neg h0, if_neg h16, if_neg h17, if_neg h18, if_neg h19]

theorem getFunct_ne_zero {w : Nat} (h : getFunct w ≠ 0) : w ≠ 0 := by
  intro hw
  rw [hw] at h
  exact h (by decide)


/-! ## Shared lemmas: the state-keeping reading agrees with `execute` and `cycle` -/

theorem stoppedAt_agrees (s : Machine) (r : Except Fault Machine) : Agrees r (stoppedAt s r) := by
  cases r with
  | error e =>
    constructor
    · intro s'
      constructor
      · intro h; cases h
      · intro h; cases h
    · intro e'
      constructor
      · intro h; cases h; exact ⟨s, rfl⟩
      · intro h
        obtain ⟨u, hu⟩ := h
        cases hu
        rfl
  | ok t =>
    constructor
    · intro s'
      constructor
      · intro h; cases h; rfl
      · intro h; cases h; rfl
    · intro e'
      constructor
      · intro h; cases h
      · intro h
        obtain ⟨u, hu⟩ := h
        cases hu

theorem traceBEQ_agrees (s : Machine) (rs rt : Nat) (imm : Int) (address : Nat) :
    Agrees (caseBEQ s rs rt imm address) (traceBEQ s rs rt imm address) := by
  unfold caseBEQ traceBEQ
  simp only [bind, Except.bind]
  cases getRegValue s.RegFile rs with
  | error e => exact stoppedAt_agrees s (.error e)
  | ok a =>
    cases getRegValue s.RegFile rt with
    | error e => exact stoppedAt_agrees s (.error e)
    | ok b =>
      dsimp only
      split_ifs with hab
      · cases setRegValue s.RegFile 31 (wrap32 (s.ProgramCounter : Int)) with
        | error e =>
          exact stoppedAt_agrees
            { s with jumpAddress := shl32 address 2, jumpState := 2 } (.error e)
        | ok rf => exact stoppedAt_agrees s (.ok _)
      · exact stoppedAt_agrees s _

/-- Joint case analysis of `execute` and `executeTraced`. -/
theorem executeTraced_cases {SyscallExe : Syscall} {s : Machine} {w : Nat}
    {R : Except Fault Machine → Machine × Option Fault → Prop}
    (hstop : ∀ r, R r (stoppedAt s r))
    (hBEQ : R (caseBEQ s (getRS w) (getRT w) (getImmediate w) (getAddress w))
      (traceBEQ s (getRS w) (getRT w) (getImmediate w) (getAddress w))) :
    R (execute SyscallExe s w) (executeTraced SyscallExe s w) := by
  unfold execute executeTraced dispatchFunct dispatchFunctTraced
  dsimp only
  by_cases c0 : getOpcode w = 0
  · rw [if_pos c0, if_pos c0]
    by_cases f8 : getFunct w = 8
    · rw [if_pos f8, if_pos f8]; exact hstop _
    rw [if_neg f8, if_neg f8]
    by_cases f12 : getFunct w = 12
    · rw [if_pos f12, if_pos f12]; exact hstop _
    rw [if_neg f12, if_neg f12]
    by_cases f32 : getFunct w = 32
    · rw [if_pos f32, if_pos f32]; exact hstop _
    rw [if_neg f32, if_neg f32]
    by_cases f33 : getFunct w = 33
    · rw [if_pos f33, if_pos f33]; exact hstop _
    rw [if_neg f33, if_neg f33]
    by_cases f34 : getFunct w = 34
    · rw [if_pos f34, if_pos f34]; exact hstop _
    rw [if_neg f34, if_neg f34]
    by_cases f35 : getFunct w = 35
    · rw [if_pos f35, if_pos f35]; exact hstop _
    rw [if_neg f35, if_neg f35]
    by_cases f0 : getFunct w = 0
    · rw [if_pos f0, if_pos f0]; exact hstop _
    rw [if_neg f0, if_neg f0]
    by_cases f16 : getFunct w = 16
    · rw [if_pos f16, if_pos f16]; exact hstop _
    rw [if_neg f16, if_neg f16]
    by_cases f17 : getFunct w = 17
    · rw [if_pos f17, if_pos f17]; exact hstop _
    rw [if_neg f17, if_neg f17]
    by_cases f18 : getFunct w = 18
    · rw [if_pos f18, if_pos f18]; exact hstop _
    rw [if_neg f18, if_neg f18]
    by_cases f19 : getFunct w = 19
    · rw [if_pos f19, if_pos f19]; exact hstop _
    rw [if_neg f19, if_neg f19]
    exact hstop (.error _)
  rw [if_neg c0, if_neg c0]
  by_cases c2 : getOpcode w = 2
  · rw [if_pos c2, if_pos c2]; exact hstop _
  rw [if_neg c2, if_neg c2]
  by_cases c4 : getOpcode w = 4
  · rw [if_pos c4, if_pos c4]; exact hBEQ
  rw [if_neg c4, if_neg c4]
  by_cases c8 : getOpcode w = 8
  · rw [if_pos c8, if_pos c8]; exact hstop _
  rw [if_neg c8, if_neg c8]
  by_cases c9 : getOpcode w = 9
  · rw [if_pos c9, if_pos c9]; exact hstop _
  rw [if_neg c9, if_neg c9]
  by_cases c11 : getOpcode w = 11
  · rw [if_pos c11, if_pos c11]; exact hstop (.ok s)
  rw [if_neg c11, if_neg c11]
  by_cases c12 : getOpcode w = 12
  · rw [if_pos c12, if_pos c12]; exact hstop _
  rw [if_neg c12, if_neg c12]
  by_cases c13 : getOpcode w = 13
  · rw [if_pos c13, if_pos c13]; exact hstop _
  rw [if_neg c13, if_neg c13]
  by_cases c14 : getOpcode w = 14
  · rw [if_pos c14, if_pos c14]; exact hstop _
  rw [if_neg c14, if_neg c14]
  by_cases c15 : getOpcode w = 15
  · rw [if_pos c15, if_pos c15]; exact hstop _
  rw [if_neg c15, if_neg c15]
  by_cases c35 : getOpcode w = 35
  · rw [if_pos c35, if_pos c35]; exact hstop _
  rw [if_neg c35, if_neg c35]
  exact hstop (.error _)

theorem executeTraced_agrees (SyscallExe : Syscall) (s : Machine) (w : Nat) :
    Agrees (execute SyscallExe s w) (executeTraced SyscallExe s w) :=
  executeTraced_cases (stoppedAt_agrees s) (traceBEQ_agrees s _ _ _ _)

theorem cycleTraced_agrees (SyscallExe : Syscall) (s : Machine) :
    Agrees (cycle SyscallExe s) (cycleTraced SyscallExe s) := by
  have hx := executeTraced_agrees SyscallExe s (readWord s s.ProgramCounter)
  unfold cycle cycleTraced
  dsimp only
  split_ifs with h0
  · exact stoppedAt_agrees s (.ok (endOfCycle s))
  · simp only [bind, Except.bind]
    cases hr : execute SyscallExe s (readWord s s.ProgramCounter) with
    | error e =>
      obtain ⟨u, hu⟩ := (hx.2 e).mp hr
      rw [hu]
      exact stoppedAt_agrees u (.error e)
    | ok t =>
      rw [(hx.1 t).mp hr]
      exact stoppedAt_agrees s (.ok (endOfCycle t))


theorem cycle_error_cases {SyscallExe : Syscall} {s : Machine} {e : Fault}
    (h : cycle SyscallExe s = .error e) :
    readWord s s.ProgramCounter ≠ 0 ∧
    execute SyscallExe s (readWord s s.ProgramCounter) = .error e := by
  unfold cycle at h
  dsimp only at h
  split_ifs at h with h0
  refine ⟨h0, ?_⟩
  simp only [bind, Except.bind] at h
  split at h
  · rename_i e' he
    cases h
    exact he
  · cases h

/-! ## Unknown operations -/

/-- C14: if the fetched word has an opcode outside the dispatch table of the
specification, or a data-transfer opcode other than `LW`, or opcode 0 with a
funct outside the table, then the word is non-zero and the cycle stops the
program at one of the two `default:` labels: the switch, the cycle and the
run return the unknown-opcode (respectively unknown-funct) fault, whose exit
status is 1, and the state in which the program stops is the state the cycle
started in — register file, program counter, `jumpState` and `jumpAddress`
are untouched, and no further word is fetched. -/
theorem unknown_operation_halts (SyscallExe : Syscall) (s : Machine) (w : Nat)
    (hfetch : readWord s s.ProgramCounter = w)
    (hcase : getOpcode w ∉ specTableOpcodes ∨ getOpcode w ∈ otherTransferOpcodes ∨
      (getOpcode w = 0 ∧ getFunct w ∉ specTableFuncts)) :
    w ≠ 0 ∧ ∃ e, (e = .unknownOpcode (getOpcode w) ∨ e = .unknownFunct (getFunct w)) ∧
      e.isDecodeError = true ∧ e.exitStatus = some 1 ∧
      execute SyscallExe s w = .error e ∧ cycle SyscallExe s = .error e ∧
      cycleTraced SyscallExe s = (s, some e) ∧
      ∀ n, run SyscallExe (n + 1) s = ([s.ProgramCounter], .error e) := by
  have hsplit : getOpcode w ∉ handledOpcodes ∨
      (getOpcode w = 0 ∧ getFunct w ∉ handledFuncts) := by
    rcases hcase with h | h | ⟨h0, h⟩
    · left
      intro hm
      apply h
      simp only [handledOpcodes, specTableOpcodes, List.mem_cons, List.mem_singleton,
        List.not_mem_nil, or_false] at hm ⊢
      omega
    · left
      intro hm
      simp only [handledOpcodes, otherTransferOpcodes, List.mem_cons, List.mem_singleton,
        List.not_mem_nil, or_false] at hm h
      omega
    · right
      refine ⟨h0, ?_⟩
      intro hm
      apply h
      simp only [handledFuncts, specTableFuncts, List.mem_cons, List.mem_singleton,
        List.not_mem_nil, or_false] at hm ⊢
      omega
  have hfinish : ∀ e : Fault, w ≠ 0 → execute SyscallExe s w = .error e →
      executeTraced SyscallExe s w = (s, some e) →
      cycle SyscallExe s = .error e ∧ cycleTraced SyscallExe s = (s, some e) ∧
      ∀ n, run SyscallExe (n + 1) s = ([s.ProgramCounter], .error e) := by
    intro e hw0 hx ht
    have hc : cycle SyscallExe s = .error e := by
      unfold cycle
      dsimp only
      rw [hfetch, if_neg hw0, hx]
      rfl
    refine ⟨hc, ?_, ?_⟩
    · unfold cycleTraced
      dsimp only
      rw [hfetch, if_neg hw0, ht]
    · intro n
      rw [run, hc]
  rcases hsplit with hop | ⟨h0, hf⟩
  · have hw0 : w ≠ 0 := getOpcode_ne_zero (fun c => hop (by rw [c]; decide))
    obtain ⟨hx, ht⟩ := @execute_unknownOpcode SyscallExe s w hop
    exact ⟨hw0, _, Or.inl rfl, rfl, rfl, hx, hfinish _ hw0 hx ht⟩
  · have hw0 : w ≠ 0 := getFunct_ne_zero (fun c => hf (by rw [c]; decide))
    obtain ⟨hx, ht⟩ := @execute_unknownFunct SyscallExe s w h0 hf
    exact ⟨hw0, _, Or.inr rfl, rfl, rfl, hx, hfinish _ hw0 hx ht⟩

/-- Instance of C14: the word of `LB $2, 0($1)` (opcode 32) at the entry
address. -/
theorem unknown_operation_halts_witness :
    readWord (sample (encI 32 1 2 0) 0) (sample (encI 32 1 2 0) 0).ProgramCounter
      = encI 32 1 2 0 ∧
    getOpcode (encI 32 1 2 0) ∈ otherTransferOpcodes ∧
    cycle idleSyscall (sample (encI 32 1 2 0) 0) = .error (.unknownOpcode 32) ∧
    cycleTraced idleSyscall (sample (encI 32 1 2 0) 0)
      = (sample (encI 32 1 2 0) 0, some (.unknownOpcode 32)) ∧
    encI 32 1 2 0 ≠ 0 :=
  ⟨rfl, by decide, rfl, rfl,
    (unknown_operation_halts idleSyscall (sample (encI 32 1 2 0) 0) (encI 32 1 2 0) rfl
      (Or.inr (Or.inl (by decide)))).1⟩

/-! ## Operations with a handler -/

/-- C15 as stated fails: the words of `AND $3, $1, $2` (funct 36),
`JAL 100` (opcode 3), `SLTI $2, $1, 5` (opcode 10) and `BNE $1, $2, 4`
(opcode 5) are non-zero words of operations the table lists, and the cycle
that fetches each of them ends in the unknown funct / unknown opcode fault.
The same holds for every listed funct in 36, 37, 38, 39, 42, 43, 2, 3, 4, 6,
7, 9 and every listed opcode in 3, 5, 6, 7, 10. -/
theorem listed_operations_without_handler :
    36 ∈ specTableFuncts ∧ 3 ∈ specTableOpcodes ∧ 10 ∈ specTableOpcodes ∧
    5 ∈ specTableOpcodes ∧
    cycle idleSyscall (sample (encR 1 2 3 0 36) 0) = .error (.unknownFunct 36) ∧
    cycle idleSyscall (sample (encI 3 0 0 100) 0) = .error (.unknownOpcode 3) ∧
    cycle idleSyscall (sample (encI 10 1 2 5) 0) = .error (.unknownOpcode 10) ∧
    cycle idleSyscall (sample (encI 5 1 2 4) 0) = .error (.unknownOpcode 5) ∧
    (∀ f ∈ [36, 37, 38, 39, 42, 43, 2, 3, 4, 6, 7, 9], f ∈ specTableFuncts ∧
      cycle idleSyscall (sample (encR 1 2 3 0 f) 0) = .error (.unknownFunct f)) ∧
    (∀ op ∈ [3, 5, 6, 7, 10], op ∈ specTableOpcodes ∧
      cycle idleSyscall (sample (encI op 1 2 4) 0) = .error (.unknownOpcode op)) := by
  refine ⟨by decide, by decide, by decide, by decide, rfl, rfl, rfl, rfl, ?_, ?_⟩
  · intro f hf
    simp only [List.mem_cons, List.mem_singleton, List.not_mem_nil, or_false] at hf
    rcases hf with rfl | rfl | rfl | rfl | rfl | rfl | rfl | rfl | rfl | rfl | rfl | rfl <;>
      exact ⟨by decide, rfl⟩
  · intro op hop
    simp only [List.mem_cons, List.mem_singleton, List.not_mem_nil, or_false] at hop
    rcases hop with rfl | rfl | rfl | rfl | rfl <;> exact ⟨by decide, rfl⟩

/-- C15 amended: every operation with a `case` label in the switch — opcode
`J`, `BEQ`, `ADDI`, `ADDIU`, `SLTIU`, `ANDI`, `ORI`, `XORI`, `LUI`, `LW`, or
opcode 0 with funct `JR`, `SYSCALL`, `ADD`, `ADDU`, `SUB`, `SUBU`, `SLL`,
`MFHI`, `MTHI`, `MFLO`, `MTLO` — is dispatched to its handler: a cycle that
fetches such a word never ends in the unknown opcode / unknown funct fault
(nor does the switch on that word). -/
theorem handled_operations_dispatched (SyscallExe : Syscall) (s : Machine) (w : Nat)
    (hfetch : readWord s s.ProgramCounter = w)
    (hcase : (getOpcode w ≠ 0 ∧ getOpcode w ∈ handledOpcodes) ∨
      (getOpcode w = 0 ∧ getFunct w ∈ handledFuncts)) :
    (∀ e, execute SyscallExe s w = .error e → e.isDecodeError = false) ∧
    (∀ e, cycle SyscallExe s = .error e → e.isDecodeError = false) := by
  have hexec : ∀ e, execute SyscallExe s w = .error e → e.isDecodeError = false := by
    intro e he
    rcases execute_fault he with h | h | ⟨n, _, ⟨h | h, _⟩⟩ | ⟨_, h0, hf⟩ | ⟨_, hop⟩
    · rw [h]; rfl
    · rw [h]; rfl
    · rw [h]; rfl
    · rw [h]; rfl
    · rcases hcase with ⟨hne, _⟩ | ⟨_, hin⟩
      · exact absurd h0 hne
      · exact absurd hin hf
    · rcases hcase with ⟨_, hin⟩ | ⟨h0, _⟩
      · exact absurd hin hop
      · exact absurd (by rw [h0]; decide) hop
  refine ⟨hexec, ?_⟩
  intro e he
  have hx := (cycle_error_cases he).2
  rw [hfetch] at hx
  exact hexec e hx

/-- Instance of C15 amended: `ADDI $2, $1, 1` with register 1 holding
`INT_MAX` stops with the overflow fault, which is not a decode error. -/
theorem handled_operations_dispatched_witness :
    readWord ⟨maxRegFile, fun _ => encI 8 1 2 1, 0, 0, 0⟩ 0 = encI 8 1 2 1 ∧
    getOpcode (encI 8 1 2 1) ≠ 0 ∧ getOpcode (encI 8 1 2 1) ∈ handledOpcodes ∧
    cycle idleSyscall ⟨maxRegFile, fun _ => encI 8 1 2 1, 0, 0, 0⟩ = .error .overflow ∧
    Fault.isDecodeError .overflow = false :=
  ⟨rfl, by decide, by decide, rfl,
    (handled_operations_dispatched idleSyscall ⟨maxRegFile, fun _ => encI 8 1 2 1, 0, 0, 0⟩
      (encI 8 1 2 1) rfl (Or.inl ⟨by decide, by decide⟩)).2 .overflow rfl⟩

/-! ## Register indices used by the switch -/

/-- C20: for every word the decoded `rs`, `rt`, `rd` fields are at most 31,
so with the constants 31, 32, 33 every index the switch passes to a register
accessor is at most 33; on a register file of 34 entries both accessors
succeed at every such index, and no fault of the switch or of a cycle is the
register index error (or an access past the end of the array). -/
theorem no_register_index_fault (SyscallExe : Syscall) (s : Machine) (w : Nat)
    (hlen : s.RegFile.length = RegFileEntries) :
    getRS w ≤ 31 ∧ getRT w ≤ 31 ∧ getRD w ≤ 31 ∧
    (∀ n, n ≤ 33 → (∃ v, getRegValue s.RegFile n = .ok v) ∧
      ∀ v, ∃ rf, setRegValue s.RegFile n v = .ok rf) ∧
    (∀ e, execute SyscallExe s w = .error e → e.isIndexFault = false) ∧
    (∀ e, cycle SyscallExe s = .error e → e.isIndexFault = false) := by
  unfold RegFileEntries at hlen
  have hexec : ∀ (w : Nat) (e : Fault), execute SyscallExe s w = .error e →
      e.isIndexFault = false := by
    intro w e he
    rcases execute_fault he with h | h | ⟨n, hn, _, hle⟩ | ⟨h, _⟩ | ⟨h, _⟩
    · rw [h]; rfl
    · rw [h]; rfl
    · omega
    · rw [h]; rfl
    · rw [h]; rfl
  have h1 := getRS_lt w
  have h2 := getRT_lt w
  have h3 := getRD_lt w
  refine ⟨by omega, by omega, by omega, ?_, hexec w, fun e he => hexec _ e (cycle_error_cases he).2⟩
  intro n hn
  have hlt : n < s.RegFile.length := by omega
  refine ⟨⟨_, getRegValue_of_lt hlt⟩, fun v => ?_⟩
  by_cases h0 : n = 0
  · exact ⟨s.RegFile, by unfold setRegValue; rw [if_pos h0]⟩
  · exact ⟨_, setRegValue_of_lt v h0 hlt⟩

/-- Instance of C20: the cycle on `MFLO $3` over the all-zero register file
reads index 33 and succeeds. -/
theorem no_register_index_fault_witness :
    (sample (encR 0 0 3 0 18) 0).RegFile.length = RegFileEntries ∧
    getRD (encR 0 0 3 0 18) ≤ 31 ∧
    (∃ v, getRegValue (sample (encR 0 0 3 0 18) 0).RegFile 33 = .ok v) ∧
    ∃ s', cycle idleSyscall (sample (encR 0 0 3 0 18) 0) = .ok s' :=
  ⟨rfl, (no_register_index_fault idleSyscall (sample (encR 0 0 3 0 18) 0)
      (encR 0 0 3 0 18) rfl).2.2.1,
    ((no_register_index_fault idleSyscall (sample (encR 0 0 3 0 18) 0)
      (encR 0 0 3 0 18) rfl).2.2.2.1 33 (by decide)).1, _, rfl⟩

/-! ## Shared lemmas: jump targets -/

theorem toU32_wrap32 (x : Int) : toU32 (wrap32 x) = toU32 x := by
  unfold toU32 wrap32
  congr 1
  omega

theorem toU32_shift_aligned (x : Int) : toU32 (wrap32 (x * 2 ^ 2)) % 4 = 0 := by
  rw [toU32_wrap32]
  unfold toU32
  omega

theorem shl32_two (a : Nat) : shl32 a 2 = a * 4 % 4294967296 := by
  simp only [shl32, Nat.shiftLeft_eq]

theorem shl32_two_aligned (a : Nat) : shl32 a 2 % 4 = 0 := by
  rw [shl32_two]
  omega

theorem execute_JR {SyscallExe : Syscall} {s : Machine} {w : Nat}
    (h0 : getOpcode w = 0) (h8 : getFunct w = 8) :
    execute SyscallExe s w = caseJR s (getRS w) := by
  unfold execute dispatchFunct
  dsimp only
  rw [if_pos h0, if_pos h8]

theorem execute_BEQ {SyscallExe : Syscall} {s : Machine} {w : Nat} (h : getOpcode w = 4) :
    execute SyscallExe s w =
      caseBEQ s (getRS w) (getRT w) (getImmediate w) (getAddress w) := by
  unfold execute
  dsimp only
  rw [if_neg (by omega), if_neg (by omega), if_pos h]

/-- A due transfer is delivered by the next cycle that goes through without
arming a new one. -/
theorem due_delivered {SyscallExe : Syscall} {s1 s2 : Machine} (hdue : s1.jumpState = 1)
    (harm : ¬ arms s1 (readWord s1 s1.ProgramCounter)) (h : cycle SyscallExe s1 = .ok s2) :
    s2.ProgramCounter = s1.jumpAddress ∧ s2.jumpState = 0 := by
  have key : ∀ t : Machine, t.jumpState = 1 → t.jumpAddress = s1.jumpAddress →
      (endOfCycle t).ProgramCounter = s1.jumpAddress ∧ (endOfCycle t).jumpState = 0 := by
    intro t h1 h2
    rw [endOfCycle_PC, endOfCycle_jumpState, h1, h2]
    exact ⟨rfl, rfl⟩
  rcases cycle_ok_cases h with ⟨_, rfl⟩ | ⟨_, t, ht, rfl⟩
  · exact key _ hdue rfl
  · have hk := execute_keepsSched harm ht
    exact key t (hk.1.trans hdue) hk.2

/-- After a handler has armed a transfer to `target`, the code at `end:`
advances the program counter by 4 and leaves the transfer due. -/
theorem endOfCycle_armed (t : Machine) (target : Nat) (h2 : t.jumpState = 2)
    (ha : t.jumpAddress = target) :
    (endOfCycle t).ProgramCounter = (t.ProgramCounter + 4) % 4294967296 ∧
    (endOfCycle t).jumpState = 1 ∧ (endOfCycle t).jumpAddress = target ∧
    schedOf (endOfCycle t) = some (.DUE target) := by
  have hjs : (endOfCycle t).jumpState = 1 := by
    rw [endOfCycle_jumpState, if_pos h2]
  have hja : (endOfCycle t).jumpAddress = target := by
    rw [(endOfCycle_frame t).2.2, ha]
  refine ⟨?_, hjs, hja, ?_⟩
  · rw [endOfCycle_PC, if_neg (by omega)]
  · unfold schedOf
    rw [hjs, hja]
    rfl

/-! ## J and JR -/

/-- C16: a cycle that fetches a `J` word with address field `a`, or (over a
register file of 34 entries) a `JR` word whose register `rs` holds `r`,
succeeds; the switch itself leaves the program counter alone and arms the
transfer (`jumpState = 2`) with the target `a * 4 mod 2^32`, respectively
`r * 4 mod 2^32`; after the cycle the program counter is p + 4 (modulo
2^32), the register file is unchanged and the transfer is due with that
target: the next cycle that goes through without arming a new transfer
leaves the program counter at the target. A transfer pending at entry plays
no role. -/
theorem jump_arms_scheduler (SyscallExe : Syscall) (s : Machine) (w : Nat)
    (hfetch : readWord s s.ProgramCounter = w) :
    (getOpcode w = 2 →
      ∃ t s1, execute SyscallExe s w = .ok t ∧ t.ProgramCounter = s.ProgramCounter ∧
        schedOf t = some (.ARMED (getAddress w * 4 % 4294967296)) ∧
        cycle SyscallExe s = .ok s1 ∧
        s1.ProgramCounter = (s.ProgramCounter + 4) % 4294967296 ∧
        s1.RegFile = s.RegFile ∧
        schedOf s1 = some (.DUE (getAddress w * 4 % 4294967296)) ∧
        ∀ s2, ¬ arms s1 (readWord s1 s1.ProgramCounter) → cycle SyscallExe s1 = .ok s2 →
          s2.ProgramCounter = getAddress w * 4 % 4294967296) ∧
    (getOpcode w = 0 → getFunct w = 8 → s.RegFile.length = RegFileEntries →
      ∃ r t s1, getRegValue s.RegFile (getRS w) = .ok r ∧
        execute SyscallExe s w = .ok t ∧ t.ProgramCounter = s.ProgramCounter ∧
        schedOf t = some (.ARMED ((r * 4) % 4294967296).toNat) ∧
        cycle SyscallExe s = .ok s1 ∧
        s1.ProgramCounter = (s.ProgramCounter + 4) % 4294967296 ∧
        s1.RegFile = s.RegFile ∧
        schedOf s1 = some (.DUE ((r * 4) % 4294967296).toNat) ∧
        ∀ s2, ¬ arms s1 (readWord s1 s1.ProgramCounter) → cycle SyscallExe s1 = .ok s2 →
          s2.ProgramCounter = ((r * 4) % 4294967296).toNat) := by
  have hcyc : ∀ t : Machine, w ≠ 0 → execute SyscallExe s w = .ok t →
      cycle SyscallExe s = .ok (endOfCycle t) := by
    intro t hw0 hx
    unfold cycle
    dsimp only
    rw [hfetch, if_neg hw0, hx]
    rfl
  have hall : ∀ (target : Nat) (t : Machine), w ≠ 0 → execute SyscallExe s w = .ok t →
      t.ProgramCounter = s.ProgramCounter → t.RegFile = s.RegFile → t.jumpState = 2 →
      t.jumpAddress = target →
      ∃ s1, cycle SyscallExe s = .ok s1 ∧
        s1.ProgramCounter = (s.ProgramCounter + 4) % 4294967296 ∧
        s1.RegFile = s.RegFile ∧ schedOf s1 = some (.DUE target) ∧
        ∀ s2, ¬ arms s1 (readWord s1 s1.ProgramCounter) → cycle SyscallExe s1 = .ok s2 →
          s2.ProgramCounter = target := by
    intro target t hw0 hx hpc hrf h2 ha
    obtain ⟨e1, e2, e3, e4⟩ := endOfCycle_armed t target h2 ha
    refine ⟨endOfCycle t, hcyc t hw0 hx, by rw [e1, hpc], by rw [(endOfCycle_frame t).1, hrf],
      e4, ?_⟩
    intro s2 harm hc2
    rw [(due_delivered e2 harm hc2).1, e3]
  constructor
  · intro hJ
    have hw0 : w ≠ 0 := getOpcode_ne_zero (by omega)
    have hx : execute SyscallExe s w =
        .ok { s with jumpAddress := shl32 (getAddress w) 2, jumpState := 2 } := by
      rw [execute_JUMP hJ]
      rfl
    have hsched : schedOf { s with jumpAddress := shl32 (getAddress w) 2, jumpState := 2 }
        = some (.ARMED (getAddress w * 4 % 4294967296)) := by
      unfold schedOf
      rw [if_pos rfl]
      dsimp only
      rw [shl32_two]
    obtain ⟨s1, h1⟩ := hall (getAddress w * 4 % 4294967296) _ hw0 hx rfl rfl rfl
      (shl32_two _)
    exact ⟨_, s1, hx, rfl, hsched, h1⟩
  · intro h0 h8 hlen
    unfold RegFileEntries at hlen
    have hw0 : w ≠ 0 := getFunct_ne_zero (by omega)
    have hrs : getRS w < s.RegFile.length := by have := getRS_lt w; omega
    have htarget : toU32 (wrap32 (s.RegFile.get ⟨getRS w, hrs⟩ * 2 ^ 2))
        = ((s.RegFile.get ⟨getRS w, hrs⟩ * 4) % 4294967296).toNat := by
      rw [toU32_wrap32]
      rfl
    have hx : execute SyscallExe s w =
        .ok { s with
          jumpAddress := toU32 (wrap32 (s.RegFile.get ⟨getRS w, hrs⟩ * 2 ^ 2)),
          jumpState := 2 } := by
      rw [execute_JR h0 h8]
      simp only [caseJR, getRegValue_of_lt hrs, bind, Except.bind]
    have hsched : schedOf { s with
          jumpAddress := toU32 (wrap32 (s.RegFile.get ⟨getRS w, hrs⟩ * 2 ^ 2)),
          jumpState := 2 }
        = some (.ARMED ((s.RegFile.get ⟨getRS w, hrs⟩ * 4) % 4294967296).toNat) := by
      unfold schedOf
      rw [if_pos rfl]
      dsimp only
      rw [htarget]
    obtain ⟨s1, h1⟩ := hall _ _ hw0 hx rfl rfl rfl htarget
    exact ⟨_, _, s1, getRegValue_of_lt hrs, hx, rfl, hsched, h1⟩

/-- Instance of C16: `JR $1` over a register file whose register 1 holds 100
leaves the transfer to 400 due. -/
theorem jump_arms_scheduler_witness :
    readWord (midRun regFile100 (fun _ => encR 1 0 0 0 8)) 8 = encR 1 0 0 0 8 ∧
    getOpcode (encR 1 0 0 0 8) = 0 ∧ getFunct (encR 1 0 0 0 8) = 8 ∧
    regFile100.length = RegFileEntries ∧
    cycle idleSyscall (midRun regFile100 (fun _ => encR 1 0 0 0 8)) =
      .ok ⟨regFile100, fun _ => encR 1 0 0 0 8, 12, 400, 1⟩ ∧
    ∃ r t s1, getRegValue regFile100 (getRS (encR 1 0 0 0 8)) = .ok r ∧
      execute idleSyscall (midRun regFile100 (fun _ => encR 1 0 0 0 8)) (encR 1 0 0 0 8)
        = .ok t ∧
      cycle idleSyscall (midRun regFile100 (fun _ => encR 1 0 0 0 8)) = .ok s1 ∧
      schedOf s1 = some (.DUE ((r * 4) % 4294967296).toNat) := by
  obtain ⟨r, t, s1, hr, hx, _, _, hc, _, _, hs, _⟩ :=
    (jump_arms_scheduler idleSyscall (midRun regFile100 (fun _ => encR 1 0 0 0 8))
      (encR 1 0 0 0 8) rfl).2 rfl rfl rfl
  exact ⟨rfl, rfl, rfl, rfl, rfl, r, t, s1, hr, hx, hc, hs⟩

/-! ## The instruction budget -/

/-- C17: for every syscall handler, budget `n` and state, the loop is a
total function of the budget: it performs at most `n` fetches (one per
cycle) and returns; it performs exactly `n` when no cycle stops the program,
and at least one when a cycle does. A budget of 0 fetches nothing. -/
theorem run_within_budget (SyscallExe : Syscall) (n : Nat) (s : Machine) :
    (run SyscallExe n s).1.length ≤ n ∧
    ((∃ s', (run SyscallExe n s).2 = .ok s') → (run SyscallExe n s).1.length = n) ∧
    (∀ e, (run SyscallExe n s).2 = .error e → 1 ≤ (run SyscallExe n s).1.length) ∧
    run SyscallExe 0 s = ([], .ok s) := by
  refine ⟨?_, ?_, ?_, rfl⟩
  · induction n generalizing s with
    | zero => rw [run]; exact Nat.le_refl 0
    | succ k ih =>
      rw [run]
      cases cycle SyscallExe s with
      | error e => dsimp only; simp
      | ok t =>
        dsimp only
        rw [List.length_cons]
        exact Nat.succ_le_succ (ih t)
  · induction n generalizing s with
    | zero => intro _; rw [run]; rfl
    | succ k ih =>
      rw [run]
      cases cycle SyscallExe s with
      | error e =>
        dsimp only
        intro h
        obtain ⟨s', hs'⟩ := h
        cases hs'
      | ok t =>
        dsimp only
        intro h
        rw [List.length_cons, ih t h]
  · intro e
    cases n with
    | zero =>
      rw [run]
      intro h
      cases h
    | succ k =>
      rw [run]
      cases cycle SyscallExe s with
      | error e' => dsimp only; intro _; simp
      | ok t => dsimp only; intro _; simp

/-- Instance of C17: a budget of 2 over a memory that repeats `J 0` stops
after two fetches although the program never ends. -/
theorem run_within_budget_witness :
    (run idleSyscall 2 ⟨zeroRegFile, fun _ => encJ 0, 0, 0, 0⟩).1 = [0, 4] ∧
    (∃ s', (run idleSyscall 2 ⟨zeroRegFile, fun _ => encJ 0, 0, 0, 0⟩).2 = .ok s') ∧
    (run idleSyscall 2 ⟨zeroRegFile, fun _ => encJ 0, 0, 0, 0⟩).1.length = 2 :=
  ⟨rfl, ⟨_, rfl⟩,
    (run_within_budget idleSyscall 2 ⟨zeroRegFile, fun _ => encJ 0, 0, 0, 0⟩).2.1 ⟨_, rfl⟩⟩

/-! ## BEQ -/

/-- The effect of `case OP_ADDI` over a register file of 34 `int32_t`
entries, with `a` the value of register `rs`. -/
theorem caseADDI_spec {s : Machine} {rs rt : Nat} {imm a : Int}
    (hlen : s.RegFile.length = RegFileEntries) (hrt : rt < 32)
    (ha : getRegValue s.RegFile rs = .ok a) (hin : inInt32 a) (him : inInt32 imm) :
    (¬ inInt32 (a + imm) → caseADDI s rs rt imm = .error .overflow) ∧
    (inInt32 (a + imm) → ∃ rf, setRegValue s.RegFile rt (a + imm) = .ok rf ∧
      caseADDI s rs rt imm = .ok { s with RegFile := rf }) := by
  unfold RegFileEntries at hlen
  constructor
  · intro hov
    have hyes : additionWillOverflow a imm = true := (additionWillOverflow_iff hin him).mpr hov
    simp only [caseADDI, ha, bind, Except.bind, hyes]
    rfl
  · intro hov
    have hno : additionWillOverflow a imm = false := by
      rw [Bool.eq_false_iff, Ne, additionWillOverflow_iff hin him]
      exact not_not.mpr hov
    have hset : ∃ rf, setRegValue s.RegFile rt (a + imm) = .ok rf := by
      by_cases h0 : rt = 0
      · exact ⟨s.RegFile, by unfold setRegValue; rw [if_pos h0]⟩
      · exact ⟨_, setRegValue_of_lt _ h0 (by omega)⟩
    obtain ⟨rf, hrf⟩ := hset
    refine ⟨rf, hrf, ?_⟩
    simp only [caseADDI, ha, bind, Except.bind, hno, wrap32_of_inInt32 hov, hrf]
    rfl

/-- C18 as stated fails: `BEQ $1, $2` with immediate field 5 over the
all-zero register file has equal operands; the cycle arms the scheduler and
writes the program counter 8 to register 31, and register 2 still holds 0,
whereas the ADDI effect on the same fields stores 0 + 5 = 5 in register 2. -/
theorem beq_taken_has_no_addi_effect :
    getOpcode (encI 4 1 2 5) = 4 ∧ getRS (encI 4 1 2 5) = 1 ∧ getRT (encI 4 1 2 5) = 2 ∧
    getImmediate (encI 4 1 2 5) = 5 ∧
    getRegValue zeroRegFile 1 = getRegValue zeroRegFile 2 ∧
    execute idleSyscall (midRun zeroRegFile (fun _ => 0)) (encI 4 1 2 5) =
      .ok ⟨zeroRegFile.set 31 8, fun _ => 0, 8, getAddress (encI 4 1 2 5) * 4, 2⟩ ∧
    getRegValue (zeroRegFile.set 31 8) 2 = .ok 0 ∧
    caseADDI (midRun zeroRegFile (fun _ => 0)) 1 2 5 =
      .ok ⟨zeroRegFile.set 2 5, fun _ => 0, 8, 0, 0⟩ := by
  refine ⟨rfl, rfl, rfl, rfl, rfl, rfl, rfl, rfl⟩

/-- C18 amended: over a register file of 34 `int32_t` entries, for every
`BEQ` word, with `a`, `b` the values of registers `rs` and `rt`: when
`a = b` the handler arms the scheduler with `address * 4 mod 2^32`, writes
the program counter to register 31 and ends the case there, with no ADDI
effect; when `a ≠ b` it runs on into the `ADDI` handler — the result is that
of `case OP_ADDI` on the same fields: the overflow fault when `a + immediate`
is outside the `int32_t` range, the register write
`setRegValue(rt, a + immediate)` and nothing else otherwise, the scheduler
being left alone. -/
theorem beq_not_taken_falls_through (SyscallExe : Syscall) (s : Machine) (w : Nat)
    (hop : getOpcode w = 4) (hrf : RegFileOK s.RegFile) :
    ∃ a b, getRegValue s.RegFile (getRS w) = .ok a ∧
      getRegValue s.RegFile (getRT w) = .ok b ∧
      (a = b → execute SyscallExe s w =
        .ok { s with jumpAddress := getAddress w * 4 % 4294967296, jumpState := 2,
                     RegFile := s.RegFile.set 31 (wrap32 (s.ProgramCounter : Int)) }) ∧
      (a ≠ b →
        execute SyscallExe s w = caseADDI s (getRS w) (getRT w) (getImmediate w) ∧
        (¬ inInt32 (a + getImmediate w) → execute SyscallExe s w = .error .overflow) ∧
        (inInt32 (a + getImmediate w) →
          ∃ rf, setRegValue s.RegFile (getRT w) (a + getImmediate w) = .ok rf ∧
            execute SyscallExe s w = .ok { s with RegFile := rf })) := by
  obtain ⟨hlen, hval⟩ := hrf
  have hlen' := hlen
  unfold RegFileEntries at hlen'
  have hrs : getRS w < s.RegFile.length := by have := getRS_lt w; omega
  have hrt : getRT w < s.RegFile.length := by have := getRT_lt w; omega
  have hm : inInt32 (getImmediate w) := by
    rw [getImmediate_eq_low16]
    simp only [inInt32, INT_MIN, INT_MAX]
    omega
  refine ⟨_, _, getRegValue_of_lt hrs, getRegValue_of_lt hrt, ?_, ?_⟩
  · intro hab
    rw [execute_BEQ hop]
    simp only [caseBEQ, getRegValue_of_lt hrs, getRegValue_of_lt hrt, bind, Except.bind,
      if_pos hab, setRegValue_of_lt _ (show (31 : Nat) ≠ 0 by omega)
        (show 31 < s.RegFile.length by omega), shl32_two]
  · intro hab
    have hx : execute SyscallExe s w = caseADDI s (getRS w) (getRT w) (getImmediate w) := by
      rw [execute_BEQ hop]
      simp only [caseBEQ, getRegValue_of_lt hrs, getRegValue_of_lt hrt, bind, Except.bind,
        if_neg hab]
    have hspec := @caseADDI_spec s (getRS w) (getRT w) (getImmediate w) _ hlen (getRT_lt w)
      (getRegValue_of_lt hrs) (hval _ (List.get_mem _ _ _)) hm
    rw [hx]
    exact ⟨rfl, hspec.1, hspec.2⟩

/-- Instance of C18 amended: `BEQ $1, $2` with immediate field 5 where
register 1 holds 5 and register 2 holds 7 stores 5 + 5 = 10 in register 2. -/
theorem beq_not_taken_falls_through_witness :
    getOpcode (encI 4 1 2 5) = 4 ∧ RegFileOK regFile57 ∧
    execute idleSyscall (midRun regFile57 (fun _ => 0)) (encI 4 1 2 5) =
      .ok ⟨regFile57.set 2 10, fun _ => 0, 8, 0, 0⟩ ∧
    ∃ a b, getRegValue regFile57 (getRS (encI 4 1 2 5)) = .ok a ∧
      getRegValue regFile57 (getRT (encI 4 1 2 5)) = .ok b ∧
      (a ≠ b → execute idleSyscall (midRun regFile57 (fun _ => 0)) (encI 4 1 2 5) =
        caseADDI (midRun regFile57 (fun _ => 0)) (getRS (encI 4 1 2 5))
          (getRT (encI 4 1 2 5)) (getImmediate (encI 4 1 2 5))) := by
  have hok : RegFileOK regFile57 := ⟨rfl, by decide⟩
  obtain ⟨a, b, ha, hb, _, hne⟩ :=
    beq_not_taken_falls_through idleSyscall (midRun regFile57 (fun _ => 0)) (encI 4 1 2 5)
      rfl hok
  exact ⟨rfl, hok, rfl, a, b, ha, hb, fun h => (hne h).1⟩

/-! ## Alignment of the program counter -/

theorem execute_aligned {SyscallExe : Syscall} {s s' : Machine} {w : Nat}
    (ha : Aligned s) (h : execute SyscallExe s w = .ok s') : Aligned s' := by
  have hpc := (execute_sched h).1
  have key : KeepsSched s s' ∨ s'.jumpAddress % 4 = 0 := by
    revert h
    apply execute_cases (P := fun r => r = .ok s' → KeepsSched s s' ∨ s'.jumpAddress % 4 = 0)
    case hSYSCALL => exact fun _ _ h => Or.inl (caseSYSCALL_effect h).2
    case hFunct => exact fun _ _ h => by cases h
    case hOpcode => exact fun _ h => by cases h
    case hSLTIU => exact fun _ h => by cases h; exact Or.inl ⟨rfl, rfl⟩
    case hJR =>
      intro _ _ h
      right
      simp only [caseJR, bind, Except.bind] at h
      split at h
      · cases h
      · cases h
        exact toU32_shift_aligned _
    case hJUMP =>
      intro _ h
      right
      unfold caseJUMP at h
      cases h
      exact shl32_two_aligned _
    case hBEQ =>
      intro _ h
      simp only [caseBEQ, bind, Except.bind] at h
      split at h
      · cases h
      · split at h
        · cases h
        · split at h
          · split at h
            · cases h
            · cases h
              exact Or.inr (shl32_two_aligned _)
          · exact Or.inl (caseADDI_effect h).2
    case hADD => exact fun _ _ h => Or.inl (caseADD_effect h).2
    case hADDU => exact fun _ _ h => Or.inl (caseADDU_effect h).2
    case hSUB => exact fun _ _ h => Or.inl (caseSUB_effect h).2
    case hSUBU => exact fun _ _ h => Or.inl (caseSUBU_effect h).2
    case hSLL => exact fun _ _ h => Or.inl (caseSLL_effect h).2
    case hMFHI => exact fun _ _ h => Or.inl (caseMFHI_effect h).2
    case hMTHI => exact fun _ _ h => Or.inl (caseMTHI_effect h).2
    case hMFLO => exact fun _ _ h => Or.inl (caseMFLO_effect h).2
    case hMTLO => exact fun _ _ h => Or.inl (caseMTLO_effect h).2
    case hADDI => exact fun _ h => Or.inl (caseADDI_effect h).2
    case hADDIU => exact fun _ h => Or.inl (caseADDIU_effect h).2
    case hANDI => exact fun _ h => Or.inl (caseANDI_effect h).2
    case hORI => exact fun _ h => Or.inl (caseORI_effect h).2
    case hXORI => exact fun _ h => Or.inl (caseXORI_effect h).2
    case hLUI => exact fun _ h => Or.inl (caseLUI_effect h).2
    case hLW => exact fun _ h => Or.inl (caseLW_effect h).2
  refine ⟨by rw [hpc]; exact ha.1, ?_⟩
  rcases key with hk | hal
  · rw [hk.1, hk.2]; exact ha.2
  · exact fun _ => hal

theorem endOfCycle_aligned {s : Machine} (ha : Aligned s) : Aligned (endOfCycle s) := by
  obtain ⟨hpc, hja⟩ := ha
  refine ⟨?_, ?_⟩
  · rw [endOfCycle_PC]
    split_ifs with h1
    · exact hja (by omega)
    · omega
  · rw [endOfCycle_jumpState, (endOfCycle_frame s).2.2]
    intro hne
    apply hja
    intro h0
    rw [h0] at hne
    exact hne (by decide)

theorem cycle_aligned {SyscallExe : Syscall} {s s' : Machine}
    (ha : Aligned s) (h : cycle SyscallExe s = .ok s') : Aligned s' := by
  rcases cycle_ok_cases h with ⟨_, rfl⟩ | ⟨_, t, ht, rfl⟩
  · exact endOfCycle_aligned ha
  · exact endOfCycle_aligned (execute_aligned ha ht)

theorem run_aligned (SyscallExe : Syscall) (n : Nat) (s : Machine) (ha : Aligned s) :
    (∀ a ∈ (run SyscallExe n s).1, a % 4 = 0) ∧
    ∀ s', (run SyscallExe n s).2 = .ok s' → Aligned s' := by
  induction n generalizing s with
  | zero =>
    rw [run]
    constructor
    · intro a h
      cases h
    · intro s' h
      cases h
      exact ha
  | succ k ih =>
    rw [run]
    cases hc : cycle SyscallExe s with
    | error e =>
      dsimp only
      constructor
      · intro a h
        rw [List.mem_singleton] at h
        rw [h]
        exact ha.1
      · intro s' h
        cases h
    | ok t =>
      dsimp only
      have iht := ih t (cycle_aligned ha hc)
      refine ⟨fun a h => ?_, iht.2⟩
      rcases List.mem_cons.mp h with h | h
      · rw [h]; exact ha.1
      · exact iht.1 a h

/-- C19: if a run starts with the program counter a multiple of 4 and no
transfer pending, then for every syscall handler, program, register contents
and budget, every address the run fetches from is a multiple of 4 and so is
the program counter it ends with — the program counter after every cycle,
including those that deliver a pending `J`, `JR` or `BEQ` target, whose
value is a multiple of 4 as well. -/
theorem program_counter_stays_aligned (SyscallExe : Syscall) (n : Nat) (s : Machine)
    (hpc : s.ProgramCounter % 4 = 0) (hnone : s.jumpState = 0) :
    (∀ a ∈ (run SyscallExe n s).1, a % 4 = 0) ∧
    (∀ s', (run SyscallExe n s).2 = .ok s' →
      s'.ProgramCounter % 4 = 0 ∧ (s'.jumpState ≠ 0 → s'.jumpAddress % 4 = 0)) ∧
    (∀ s', cycle SyscallExe s = .ok s' → s'.ProgramCounter % 4 = 0) := by
  have ha : Aligned s := ⟨hpc, fun h => absurd hnone h⟩
  exact ⟨(run_aligned SyscallExe n s ha).1, (run_aligned SyscallExe n s ha).2,
    fun s' h => (cycle_aligned ha h).1⟩

/-- Instance of C19: `J 100` then `ADDIU $1, $0, 5`, budget 3: the fetches
are at 0, 4 and 400. -/
theorem program_counter_stays_aligned_witness :
    (sample (encJ 100) (encI 9 0 1 5)).ProgramCounter % 4 = 0 ∧
    (sample (encJ 100) (encI 9 0 1 5)).jumpState = 0 ∧
    (run idleSyscall 3 (sample (encJ 100) (encI 9 0 1 5))).1 = [0, 4, 400] ∧
    ∀ a ∈ (run idleSyscall 3 (sample (encJ 100) (encI 9 0 1 5))).1, a % 4 = 0 :=
  ⟨rfl, rfl, rfl,
    (program_counter_stays_aligned idleSyscall 3 (sample (encJ 100) (encI 9 0 1 5))
      rfl rfl).1⟩

end PROC
